import Mathlib

/-!
Verification of the crawl controller and sampling engine of the
AO3_Custom_Scraper_with_Sampling repository (src/main.py), as a shallow
embedding in Lean 4.

The embedding follows the source closely:
* a listing entry (`li.work` element) is modelled as a `Work` carrying the
  fields the controller inspects: the identifier extracted from the element's
  id attribute, whether an `h4 a` title element is present, the parsed kudos
  count, and whether the follow-up fetch of the work's own page returns a
  rate-limit-marker response (environment data attached to the work);
* network nondeterminism is an `Env`: per page, a stream of fetch attempt
  results; `pick` models `random.sample` (an arbitrary choice function);
  `offset` models `random.randint(0, n-1)` per page;
* the mutable globals and state files (`strata_counts`, `seen_work_ids`,
  `last_visited_page.txt`, `seen_work_ids.txt`, `strata_counts.json`, the CSV
  sink) become explicit fields of `RunState`;
* `exit(0)` calls become distinguished `StopReason`s; the unbounded
  `while True` page loop takes explicit fuel, with `outOfFuel` marking a run
  that is still going.
-/

/-- A listing entry as seen by the controller: identifier (from the id
attribute), presence of the title element, parsed kudos count, and whether
fetching this work's own page yields a response whose body carries the
rate-limit marker phrase. -/
structure Work where
  id : String
  hasTitle : Bool
  kudos : Nat
  rlOnDetail : Bool
deriving DecidableEq

/-- The sampling strategies of `apply_sampling` (config `sampling_strategy`);
`none` is the fall-through branch that keeps every work. -/
inductive Strategy where
  | noSampling
  | random
  | systematic
  | strata
deriving DecidableEq

/-- Python truthiness of an optional integer setting (`if max_work_count:`,
`if end_page and ...`, `if last_visited_page:`): present and nonzero. -/
def truthyNat : Option Nat → Bool
  | none => false
  | some k => decide (k ≠ 0)

/-- Consecutive bin boundary pairs: `zip(kudos_bins[:-1], kudos_bins[1:])`. -/
def binPairs (bins : List Nat) : List (Nat × Nat) :=
  bins.zip bins.tail

/-- The first boundary pair `(bin_start, bin_end)` with
`bin_start <= kudos < bin_end`, mirroring the `for ... if ... break` scan the
source performs both when categorizing works and when counting an emitted
record. -/
def firstBinPair (bins : List Nat) (kudos : Nat) : Option (Nat × Nat) :=
  (binPairs bins).find? (fun p => decide (p.1 ≤ kudos) && decide (kudos < p.2))

/-- Whether a work is categorized under boundary pair `p`. -/
def inBin (bins : List Nat) (p : Nat × Nat) (w : Work) : Bool :=
  firstBinPair bins w.kudos == some p

/-- `works_by_kudos[(bin_start, bin_end)]`: the page's works categorized under
pair `p`, in page order. -/
def worksByBin (bins : List Nat) (ws : List Work) (p : Nat × Nat) : List Work :=
  ws.filter (inBin bins p)

/-- `current_page_strata_counts[b]`: how many of the page's works are
categorized under bin lower bound `b` (the dict in `apply_sampling` is keyed
by `bin_start`). -/
def pageStrataCount (bins : List Nat) (ws : List Work) (b : Nat) : Nat :=
  ws.countP (fun w => (firstBinPair bins w.kudos).map Prod.fst == some b)

/-- `min(counts)` over a nonempty list, `0` for the empty list
(`min(counts) if counts else 0`). -/
def minPos : List Nat → Nat
  | [] => 0
  | [c] => c
  | c :: c2 :: cs => min c (minPos (c2 :: cs))

/-- `min_count`: the minimum of the positive per-bin counts of this page
(bins with zero works ignored), `0` when every bin is empty.  The dict is
keyed by `kudos_bins[:-1]`; with strictly increasing boundaries (as every
claim assumes and the ascending `kudos_bins` config documents) those keys are
distinct, so the dict-comprehension key list is `bins.dropLast` itself. -/
def minPositiveCount (bins : List Nat) (ws : List Work) : Nat :=
  minPos (((bins.dropLast).map (pageStrataCount bins ws)).filter (fun c => decide (0 < c)))

/-- Concatenation of a list of lists (accumulation of `sampled_works += ...`
over the loop on `works_by_kudos.items()`). -/
def joinL : List (List α) → List α
  | [] => []
  | l :: L => l ++ joinL L

/-- The strata branch's sampled list: for each boundary pair in order, if its
bin is nonempty and `min_count` is positive, `random.sample(work_bin,
min_count)` (the `pick` parameter), else nothing. -/
def strataSampled (pick : List Work → Nat → List Work) (bins : List Nat)
    (ws : List Work) (m : Nat) : List Work :=
  joinL ((binPairs bins).map (fun p =>
    if 0 < (worksByBin bins ws p).length ∧ 0 < m then pick (worksByBin bins ws p) m else []))

/-- The strata branch's update of the global `strata_counts`:
`strata_counts[bin_start] = strata_counts.get(bin_start, 0) + min_count` for
each nonempty bin. -/
def strataAfterSampling (bins : List Nat) (ws : List Work) (m : Nat)
    (sc : Nat → Nat) : Nat → Nat :=
  (binPairs bins).foldl (fun acc p =>
    if 0 < (worksByBin bins ws p).length ∧ 0 < m then
      fun b => if b = p.1 then acc b + m else acc b
    else acc) sc

/-- Structural model of the Python extended slice `l[c::n]` (for `n ≥ 1`):
`everyNthAux n l c` skips `c` elements, takes one, then repeats with a fresh
countdown of `n - 1`. -/
def everyNthAux (n : Nat) : List α → Nat → List α
  | [], _ => []
  | x :: xs, 0 => x :: everyNthAux n xs (n - 1)
  | _ :: xs, c + 1 => everyNthAux n xs c

/-- `works_on_page[start::sampling_n]`. -/
def pySlice (l : List α) (start n : Nat) : List α :=
  everyNthAux n (l.drop start) 0

/-- `apply_sampling`: returns the sampled works and the updated global
`strata_counts` (only the strata branch touches the counters).  `pick`
stands for `random.sample`, `r` for the page's `random.randint(0, n-1)`
draw.  The random branch size is `int(len * (pct / 100))`; Nat division
models the float truncation. -/
def apply_sampling (strategy : Strategy) (pct : Nat) (works : List Work)
    (n : Nat) (bins : List Nat) (pick : List Work → Nat → List Work) (r : Nat)
    (sc : Nat → Nat) : List Work × (Nat → Nat) :=
  match strategy with
  | .strata =>
      let m := minPositiveCount bins works
      (strataSampled pick bins works m, strataAfterSampling bins works m sc)
  | .random =>
      let size := works.length * pct / 100
      (pick works (min works.length size), sc)
  | .systematic => (pySlice works r n, sc)
  | .noSampling => (works, sc)

/-- The bin-counter bump in `scrape_single_work`: the first matching pair's
lower bound gets `+ 1`; a work at or above the last boundary matches no pair
and counts nowhere. -/
def bumpStrata (bins : List Nat) (kudos : Nat) (sc : Nat → Nat) : Nat → Nat :=
  match firstBinPair bins kudos with
  | some p => fun b => if b = p.1 then sc b + 1 else sc b
  | none => sc

/-- What `handle_rate_limit` does with a response. -/
inductive RLResult where
  | failure
  | exitRateLimited
  | ok
deriving DecidableEq

/-- `handle_rate_limit(response, page)`: `raise_for_status` turns any status
≥ 400 (including the 429 rate-limit status) into `return False`; only then is
the body checked for the "Retry later" marker, which triggers `exit(0)`. -/
def handle_rate_limit (status : Nat) (marker : Bool) : RLResult :=
  if 400 ≤ status then .failure
  else if marker then .exitRateLimited
  else .ok

/-- One fetch attempt of a listing page: a connection/timeout error or a
response with its HTTP status, whether the body carries the rate-limit
marker, and the `li.work` items parsed from the body. -/
inductive Attempt where
  | conn
  | resp (status : Nat) (marker : Bool) (works : List Work)
deriving DecidableEq

/-- Outcome of the per-page retry loop in `scrape_works`. -/
inductive PageOutcome where
  | success (works : List Work)
  | rateLimitHalt
  | exhaustedHalt
deriving DecidableEq

/-- The `while retry_count < max_retries` loop: connection errors and
`handle_rate_limit` failures (any status ≥ 400) are retried; the marker exit
propagates; exhausting the attempt budget reaches the `exit(0)` after
"Exceeded maximum retries".  Called with budget 3 (`max_retries = 3`). -/
def fetchPage (att : Nat → Attempt) : Nat → Nat → PageOutcome
  | 0, _ => .exhaustedHalt
  | fuel + 1, i =>
    match att i with
    | .conn => fetchPage att fuel (i + 1)
    | .resp status marker ws =>
      match handle_rate_limit status marker with
      | .failure => fetchPage att fuel (i + 1)
      | .exitRateLimited => .rateLimitHalt
      | .ok => .success ws

/-- An emission-ordering event: a record row written to the CSV sink, or an
identifier added to the seen set (in the order the source performs them). -/
inductive Ev where
  | wrote (id : String)
  | added (id : String)
deriving DecidableEq

/-- The controller's state: the in-memory loop variables (`page`,
`work_count`, `seen_work_ids`, `strata_counts`) and the durable artifacts
(`last_visited_page.txt`, `seen_work_ids.txt` line list, `strata_counts.json`,
the CSV rows written this run), plus the event trace. -/
structure RunState where
  page : Nat
  workCount : Nat
  seen : List String
  strata : Nat → Nat
  lastVisitedFile : Option Nat
  seenFile : List String
  strataFile : Nat → Nat
  sink : List Work
  events : List Ev

/-- Result of `scrape_single_work`: either the process exits (rate-limit
marker on the work-page fetch) or it returns with a possibly-updated state. -/
inductive SingleResult where
  | exitHalt
  | done (s : RunState)

/-- `scrape_single_work`: bail out without any effect if the title element is
missing or the id is already seen; then fetch the work's own page — a
rate-limit marker there exits the process before anything is written; a plain
failure only costs the publication date.  Otherwise: write the CSV row, add
the id to the in-memory seen set, append it to `seen_work_ids.txt`, bump the
matching bin counter, and dump `strata_counts.json`. -/
def scrape_single_work (bins : List Nat) (w : Work) (s : RunState) : SingleResult :=
  if w.hasTitle then
    if w.id ∈ s.seen then .done s
    else if w.rlOnDetail then .exitHalt
    else
      .done { s with
        sink := s.sink ++ [w]
        events := s.events ++ [Ev.wrote w.id, Ev.added w.id]
        seen := w.id :: s.seen
        seenFile := s.seenFile ++ [w.id]
        strata := bumpStrata bins w.kudos s.strata
        strataFile := bumpStrata bins w.kudos s.strata }
  else .done s

/-- `if max_work_count and work_count >= max_work_count`. -/
def reachedMax (maxWC : Option Nat) (c : Nat) : Bool :=
  truthyNat maxWC && decide (maxWC.getD 0 ≤ c)

/-- Result of the per-page `for work in sampled_works` loop: an `exit(0)`
from inside `scrape_single_work`, or normal end of the loop with the
`should_break` flag. -/
inductive InnerResult where
  | halted (s : RunState)
  | done (s : RunState) (stop : Bool)

/-- The `for work in sampled_works` loop of `scrape_works`: skip already-seen
ids (without touching `work_count`), run `scrape_single_work`, increment
`work_count` after every non-skipped work (emitting or not), then check the
max-count stop condition. -/
def processWorks (maxWC : Option Nat) (bins : List Nat) :
    List Work → RunState → InnerResult
  | [], s => .done s false
  | w :: rest, s =>
    if w.id ∈ s.seen then processWorks maxWC bins rest s
    else
      match scrape_single_work bins w s with
      | .exitHalt => .halted s
      | .done s1 =>
        let s2 := { s1 with workCount := s1.workCount + 1 }
        if reachedMax maxWC s2.workCount then .done s2 true
        else processWorks maxWC bins rest s2

/-- The state a `processWorks` result carries. -/
def innerState : InnerResult → RunState
  | .halted s => s
  | .done s _ => s

/-- `if end_page and page > end_page`. -/
def pastEnd (endP : Option Nat) (page : Nat) : Bool :=
  truthyNat endP && decide (endP.getD 0 < page)

/-- Why the modelled run ended: the two normal returns of `scrape_works`
(range exhausted, max count reached), the three `exit(0)` halts (rate-limit
marker on a page fetch, retries exhausted, rate-limit marker on a work-page
fetch), or fuel ran out (the unbounded `while True` loop is still going). -/
inductive StopReason where
  | completedRange
  | maxCount
  | rateLimitPage
  | exhausted
  | rateLimitDetail
  | outOfFuel
deriving DecidableEq

/-- The `Settings` the controller reads (post-parse: absent or empty options
are `none`). -/
structure Config where
  start_page : Nat
  end_page : Option Nat
  max_work_count : Option Nat
  sampling_strategy : Strategy
  sampling_percentage : Nat
  sampling_n : Nat
  kudos_bins : List Nat

/-- The run's environment: per page a stream of fetch-attempt results,
`random.sample` as a choice function, and the per-page `random.randint`
draw for systematic sampling. -/
structure Env where
  attempts : Nat → Nat → Attempt
  pick : List Work → Nat → List Work
  offset : Nat → Nat

/-- The `while True` page loop of `scrape_works`: check the end-page bound,
fetch with 3 attempts, sample (updating the in-memory strata counters),
write `last_visited_page.txt`, run the item loop, then advance the page by
one unless a stop fired. -/
def scrapeLoop (cfg : Config) (env : Env) : Nat → RunState → RunState × StopReason
  | 0, s => (s, .outOfFuel)
  | fuel + 1, s =>
    if pastEnd cfg.end_page s.page then (s, .completedRange)
    else
      match fetchPage (env.attempts s.page) 3 0 with
      | .rateLimitHalt => (s, .rateLimitPage)
      | .exhaustedHalt => (s, .exhausted)
      | .success works =>
        let sr := apply_sampling cfg.sampling_strategy cfg.sampling_percentage works
          cfg.sampling_n cfg.kudos_bins env.pick (env.offset s.page) s.strata
        let s1 := { s with strata := sr.2, lastVisitedFile := some s.page }
        match processWorks cfg.max_work_count cfg.kudos_bins sr.1 s1 with
        | .halted s2 => (s2, .rateLimitDetail)
        | .done s2 true => (s2, .maxCount)
        | .done s2 false => scrapeLoop cfg env fuel { s2 with page := s2.page + 1 }

/-- Entry state of `scrape_works`: `work_count = 0`, the seen set loaded from
`seen_work_ids.txt`, the in-memory strata counters reinitialized to zero
(note: `scrape_works` overwrites whatever `main` loaded from
`strata_counts.json`), the state files as found on disk, an empty sink and
trace for this run. -/
def initState (startPage : Nat) (seen0 : List String) (lvp0 : Option Nat)
    (sf0 : Nat → Nat) : RunState :=
  { page := startPage, workCount := 0, seen := seen0
    strata := fun _ => 0
    lastVisitedFile := lvp0, seenFile := seen0, strataFile := sf0
    sink := [], events := [] }

/-- `if last_visited_page: start_page = last_visited_page`. -/
def startPageUsed (startPage : Nat) (lvp : Option Nat) : Nat :=
  if truthyNat lvp then lvp.getD 0 else startPage

/-- `main`'s override: with a truthy `max_work_count`, `start_page = 1`. -/
def effectiveStartPage (cfg : Config) : Nat :=
  if truthyNat cfg.max_work_count then 1 else cfg.start_page

/-- `main`'s override: with a truthy `max_work_count`, `end_page = None`. -/
def effectiveEndPage (cfg : Config) : Option Nat :=
  if truthyNat cfg.max_work_count then none else cfg.end_page

/-- `main` up to and including the `scrape_works` call: apply the
max-count page overrides, let a persisted `last_visited_page` override the
start page, and run the page loop. -/
def mainRun (cfg : Config) (env : Env) (fuel : Nat) (lvp0 : Option Nat)
    (seen0 : List String) (sf0 : Nat → Nat) : RunState × StopReason :=
  scrapeLoop { cfg with start_page := effectiveStartPage cfg, end_page := effectiveEndPage cfg }
    env fuel
    (initState (startPageUsed (effectiveStartPage cfg) lvp0) seen0 lvp0 sf0)

/-- Whether `scrape_works` returned normally (so control reaches the file
cleanup at the end of `main`) rather than the process exiting early. -/
def isNormalReturn : StopReason → Bool
  | .completedRange => true
  | .maxCount => true
  | _ => false

/-- The three state files as `main` leaves them on disk (`none` = removed). -/
structure Disk where
  lastVisitedFile : Option Nat
  seenFile : Option (List String)
  strataFile : Option (Nat → Nat)

/-- The tail of `main`: after a normal return of `scrape_works` it removes
`last_visited_page.txt`, `seen_work_ids.txt` and `strata_counts.json`; an
`exit(0)` halt never reaches that code, leaving the files as the run wrote
them. -/
def mainDisk (s : RunState) (reason : StopReason) : Disk :=
  if isNormalReturn reason then
    { lastVisitedFile := none, seenFile := none, strataFile := none }
  else
    { lastVisitedFile := s.lastVisitedFile, seenFile := some s.seenFile
      strataFile := some s.strataFile }

/-- The identifiers of the records written to the sink. -/
def sinkIds (s : RunState) : List String :=
  s.sink.map Work.id

/-- Number of sink records whose kudos fall in some configured bin. -/
def emittedBinned (bins : List Nat) (l : List Work) : Nat :=
  (l.filter (fun w => (firstBinPair bins w.kudos).isSome)).length

/-! Helper lemmas about the slice model. -/

theorem everyNthAux_getElem {α : Type} (n : Nat) (hn : 1 ≤ n) :
    ∀ (l : List α) (c i : Nat), (everyNthAux n l c)[i]? = l[c + i * n]? := by
  intro l
  induction l with
  | nil => intro c i; simp [everyNthAux]
  | cons x xs ih =>
    intro c i
    cases c with
    | zero =>
      cases i with
      | zero => simp [everyNthAux]
      | succ j =>
        have h1 : 0 + (j + 1) * n = (j * n + (n - 1)) + 1 := by
          rw [Nat.succ_mul]; omega
        rw [h1]
        show (x :: everyNthAux n xs (n - 1))[j + 1]? = (x :: xs)[(j * n + (n - 1)) + 1]?
        rw [List.getElem?_cons_succ, List.getElem?_cons_succ, ih]
        congr 1
        omega
    | succ c2 =>
      have h1 : (c2 + 1) + i * n = (c2 + i * n) + 1 := by omega
      rw [h1]
      show (everyNthAux n xs c2)[i]? = (x :: xs)[(c2 + i * n) + 1]?
      rw [List.getElem?_cons_succ, ih]

theorem pySlice_getElem {α : Type} (l : List α) (start n : Nat) (hn : 1 ≤ n)
    (i : Nat) : (pySlice l start n)[i]? = l[start + i * n]? := by
  unfold pySlice
  rw [everyNthAux_getElem n hn, List.getElem?_drop]
  congr 1
  omega

/-- C9: for every list of items and every stride `n ≥ 1`, systematic sampling
with the drawn start offset `r ∈ [0, n)` returns exactly the items at indices
`r, r + n, r + 2n, …` in their original order: position `i` of the sampled
list is the item at index `r + i·n`, and the sampled list ends exactly when
those indices leave the page (the optional-index characterization determines
the whole list, so with `n = 3` and 7 items the sampled index set is
`{r, r+3, r+6} ∩ [0,7)`, of size 2 or 3 depending on `r`). -/
theorem claim9_systematic_sampling (l : List Work) (pct n r : Nat)
    (bins : List Nat) (pick : List Work → Nat → List Work) (sc : Nat → Nat)
    (hn : 1 ≤ n) (hr : r < n) :
    ∀ i : Nat,
      ((apply_sampling Strategy.systematic pct l n bins pick r sc).1)[i]? = l[r + i * n]? := by
  intro i
  have : (apply_sampling Strategy.systematic pct l n bins pick r sc).1 = pySlice l r n := rfl
  rw [this, pySlice_getElem l r n hn]

/-- A seven-item page for the systematic-sampling example. -/
def sevenWorks : List Work :=
  [⟨"a", true, 0, false⟩, ⟨"b", true, 0, false⟩, ⟨"c", true, 0, false⟩,
   ⟨"d", true, 0, false⟩, ⟨"e", true, 0, false⟩, ⟨"f", true, 0, false⟩,
   ⟨"g", true, 0, false⟩]

theorem claim9_systematic_sampling_witness :
    (1 ≤ 3 ∧ 1 < 3 ∧
      ∀ i : Nat,
        ((apply_sampling Strategy.systematic 50 sevenWorks 3 [] (fun l _ => l) 1
          (fun _ => 0)).1)[i]? = sevenWorks[1 + i * 3]?) ∧
    (apply_sampling Strategy.systematic 50 sevenWorks 3 [] (fun l _ => l) 1
        (fun _ => 0)).1 = [⟨"b", true, 0, false⟩, ⟨"e", true, 0, false⟩] ∧
    (apply_sampling Strategy.systematic 50 sevenWorks 3 [] (fun l _ => l) 0
        (fun _ => 0)).1.length = 3 ∧
    (apply_sampling Strategy.systematic 50 sevenWorks 3 [] (fun l _ => l) 2
        (fun _ => 0)).1.length = 2 :=
  ⟨⟨by decide, by decide,
    claim9_systematic_sampling sevenWorks 50 3 1 [] (fun l _ => l) (fun _ => 0)
      (by decide) (by decide)⟩,
   by decide, by decide, by decide⟩

/-- C10: with a truthy `max_work_count`, `main` forces `start_page` to 1 and
`end_page` to unbounded before the crawl, so the configured page-range bounds
have no effect on the run (`mainRun` ignores them entirely); a truthy
persisted `last_visited_page` then overrides the start page, which is
otherwise 1. -/
theorem claim10_maxcount_ignores_range (cfg : Config) (k : Nat)
    (hk : cfg.max_work_count = some k) (hk0 : 0 < k) :
    effectiveStartPage cfg = 1 ∧ effectiveEndPage cfg = none ∧
    (∀ env fuel lvp0 seen0 sf0 sp ep,
      mainRun { cfg with start_page := sp, end_page := ep } env fuel lvp0 seen0 sf0 =
        mainRun cfg env fuel lvp0 seen0 sf0) ∧
    (∀ p : Nat, 0 < p → startPageUsed (effectiveStartPage cfg) (some p) = p) ∧
    startPageUsed (effectiveStartPage cfg) none = 1 := by
  have ht : truthyNat cfg.max_work_count = true := by
    rw [hk]; simp [truthyNat]; omega
  refine ⟨by simp [effectiveStartPage, ht], by simp [effectiveEndPage, ht], ?_, ?_, ?_⟩
  · intro env fuel lvp0 seen0 sf0 sp ep
    have ht2 : truthyNat ({ cfg with start_page := sp, end_page := ep } : Config).max_work_count
        = true := ht
    simp only [mainRun, effectiveStartPage, effectiveEndPage, ht, ht2, if_pos]
  · intro p hp
    have hp2 : truthyNat (some p) = true := by simp [truthyNat]; omega
    simp [startPageUsed, hp2]
  · have hn2 : truthyNat none = false := rfl
    simp [startPageUsed, hn2, effectiveStartPage, ht]

/-- Concrete configuration for the C10 witness: bounds 5..9 are configured
but a truthy max count is set. -/
def cfgC10 : Config :=
  { start_page := 5, end_page := some 9, max_work_count := some 3
    sampling_strategy := Strategy.noSampling, sampling_percentage := 50
    sampling_n := 2, kudos_bins := [0, 100] }

theorem claim10_maxcount_ignores_range_witness :
    effectiveStartPage cfgC10 = 1 ∧ effectiveEndPage cfgC10 = none ∧
    (∀ env fuel lvp0 seen0 sf0 sp ep,
      mainRun { cfgC10 with start_page := sp, end_page := ep } env fuel lvp0 seen0 sf0 =
        mainRun cfgC10 env fuel lvp0 seen0 sf0) ∧
    (∀ p : Nat, 0 < p → startPageUsed (effectiveStartPage cfgC10) (some p) = p) ∧
    startPageUsed (effectiveStartPage cfgC10) none = 1 :=
  claim10_maxcount_ignores_range cfgC10 3 rfl (by decide)

/-! Rate-limit handling (C5). -/

/-- An attempt the retry loop absorbs and retries: a connection/timeout error
or any response with an HTTP-error status (≥ 400). -/
def retryableAttempt : Attempt → Prop
  | .conn => True
  | .resp status _ _ => 400 ≤ status

/-- A response delivered with a non-error status whose body carries the
rate-limit marker phrase. -/
def markerAttempt : Attempt → Prop
  | .conn => False
  | .resp status marker _ => status < 400 ∧ marker = true

theorem fetchPage_retry_step (att : Nat → Attempt) (fuel i : Nat)
    (h : retryableAttempt (att i)) :
    fetchPage att (fuel + 1) i = fetchPage att fuel (i + 1) := by
  cases ha : att i with
  | conn => simp [fetchPage, ha]
  | resp status marker ws =>
    rw [ha] at h
    simp only [retryableAttempt] at h
    simp [fetchPage, ha, handle_rate_limit, if_pos h]

theorem fetchPage_marker_step (att : Nat → Attempt) (fuel i : Nat)
    (h : markerAttempt (att i)) :
    fetchPage att (fuel + 1) i = PageOutcome.rateLimitHalt := by
  cases ha : att i with
  | conn => rw [ha] at h; exact absurd h id
  | resp status marker ws =>
    rw [ha] at h
    obtain ⟨h1, h2⟩ := h
    simp [fetchPage, ha, handle_rate_limit, h2, Nat.not_le.mpr h1]

theorem fetchPage_marker_first (att : Nat → Attempt) :
    ∀ (d fuel i : Nat), d < fuel →
      (∀ j, i ≤ j → j < i + d → retryableAttempt (att j)) →
      markerAttempt (att (i + d)) →
      fetchPage att fuel i = PageOutcome.rateLimitHalt := by
  intro d
  induction d with
  | zero =>
    intro fuel i hd hretry hm
    obtain ⟨fuel2, rfl⟩ : ∃ f2, fuel = f2 + 1 := ⟨fuel - 1, by omega⟩
    exact fetchPage_marker_step att fuel2 i (by simpa using hm)
  | succ d2 ih =>
    intro fuel i hd hretry hm
    obtain ⟨fuel2, rfl⟩ : ∃ f2, fuel = f2 + 1 := ⟨fuel - 1, by omega⟩
    rw [fetchPage_retry_step att fuel2 i (hretry i (Nat.le_refl i) (by omega))]
    exact ih fuel2 (i + 1) (by omega) (fun j hj1 hj2 => hretry j (by omega) (by omega))
      (by have : i + 1 + d2 = i + (d2 + 1) := by omega
          rw [this]; exact hm)

/-- The attempt stream of the C5 counterexample: the first fetch of the page
comes back with the HTTP status reserved for rate limiting (429, no marker
text), the second attempt succeeds with one work. -/
def attC5 : Nat → Attempt := fun j =>
  if j = 0 then Attempt.resp 429 false []
  else Attempt.resp 200 false [⟨"w1", true, 0, false⟩]

/-- C5 counterexample: a fetch response that signals rate limiting by the
reserved HTTP status code is NOT an immediate halt: `handle_rate_limit`
classifies it as a plain failure (`return False`), the retry loop fetches
again, and with a successful second attempt the run simply continues — so
"the fetch is not retried: the run halts immediately with no further fetch
attempts" is false for the status-code form of rate limiting. -/
theorem claim5_status_code_retried_cex :
    handle_rate_limit 429 false = RLResult.failure ∧
    fetchPage attC5 3 0 = PageOutcome.success [⟨"w1", true, 0, false⟩] := by
  constructor
  · rfl
  · rfl

/-- C5 (amended): only the marker-phrase form of rate limiting halts
immediately.  (1) A response with an HTTP-error status — including the
rate-limit status code — is classified by `handle_rate_limit` as a plain
failure, which the page loop retries like any other error.  (2) If, within
the three-attempt budget, every earlier attempt was retryable and attempt `i`
is a non-error response carrying the marker, the page fetch resolves to
`rateLimitHalt`, and does so for every attempt stream that agrees up to `i` —
no later fetch attempt is ever examined.  (3) A page fetch that resolves to
`rateLimitHalt` makes the whole run stop at once with the controller state
(and thus every persisted file) exactly as it was before the page's fetch. -/
theorem claim5_marker_halts_immediately :
    (∀ status marker, 400 ≤ status → handle_rate_limit status marker = RLResult.failure) ∧
    (∀ (att : Nat → Attempt) (i : Nat), i < 3 →
      (∀ j, j < i → retryableAttempt (att j)) →
      markerAttempt (att i) →
      fetchPage att 3 0 = PageOutcome.rateLimitHalt ∧
      (∀ att2 : Nat → Attempt, (∀ j, j ≤ i → att2 j = att j) →
        fetchPage att2 3 0 = PageOutcome.rateLimitHalt)) ∧
    (∀ cfg env fuel s, pastEnd cfg.end_page s.page = false →
      fetchPage (env.attempts s.page) 3 0 = PageOutcome.rateLimitHalt →
      scrapeLoop cfg env (fuel + 1) s = (s, StopReason.rateLimitPage)) := by
  refine ⟨?_, ?_, ?_⟩
  · intro status marker h
    simp [handle_rate_limit, if_pos h]
  · intro att i hi hretry hm
    have main : ∀ att3 : Nat → Attempt, (∀ j, j < i → retryableAttempt (att3 j)) →
        markerAttempt (att3 i) → fetchPage att3 3 0 = PageOutcome.rateLimitHalt := by
      intro att3 hr3 hm3
      exact fetchPage_marker_first att3 i 3 0 hi (fun j hj1 hj2 => hr3 j (by omega))
        (by simpa using hm3)
    refine ⟨main att hretry hm, ?_⟩
    intro att2 hagree
    have hr2 : ∀ j, j < i → retryableAttempt (att2 j) := by
      intro j hj
      rw [hagree j (by omega)]
      exact hretry j hj
    have hm2 : markerAttempt (att2 i) := by
      rw [hagree i (Nat.le_refl i)]
      exact hm
    exact main att2 hr2 hm2
  · intro cfg env fuel s hpast hfetch
    simp [scrapeLoop, hpast, hfetch]

/-- Environment for the C5 witness: a connection error, then a 200 response
whose body carries the rate-limit marker. -/
def envC5 : Env :=
  { attempts := fun _ j => if j = 0 then Attempt.conn else Attempt.resp 200 true []
    pick := fun l _ => l, offset := fun _ => 0 }

/-- Configuration for the C5 witness run. -/
def cfgC5 : Config :=
  { start_page := 1, end_page := none, max_work_count := none
    sampling_strategy := Strategy.noSampling, sampling_percentage := 50
    sampling_n := 2, kudos_bins := [0, 100] }

theorem claim5_marker_halts_immediately_witness :
    handle_rate_limit 429 true = RLResult.failure ∧
    fetchPage (envC5.attempts 1) 3 0 = PageOutcome.rateLimitHalt ∧
    scrapeLoop cfgC5 envC5 1 (initState 1 [] none (fun _ => 0)) =
      (initState 1 [] none (fun _ => 0), StopReason.rateLimitPage) :=
  ⟨claim5_marker_halts_immediately.1 429 true (by decide),
   (claim5_marker_halts_immediately.2.1 (envC5.attempts 1) 1 (by decide)
     (fun j hj => by
        interval_cases j
        exact trivial)
     (by simp [envC5, markerAttempt])).1,
   claim5_marker_halts_immediately.2.2 cfgC5 envC5 0 (initState 1 [] none (fun _ => 0))
     rfl
     ((claim5_marker_halts_immediately.2.1 (envC5.attempts 1) 1 (by decide)
       (fun j hj => by
          interval_cases j
          exact trivial)
       (by simp [envC5, markerAttempt])).1)⟩

/-! Generic facts about the item loop and the page loop. -/

theorem joinL_append {α : Type} (L1 L2 : List (List α)) :
    joinL (L1 ++ L2) = joinL L1 ++ joinL L2 := by
  induction L1 with
  | nil => simp [joinL]
  | cons l L ih => simp [joinL, ih]

/-- Every `.done` result of `scrape_single_work` is either the untouched
state (missing title or already seen) or the full emission update, performed
on a not-yet-seen id. -/
theorem scrape_single_work_done (bins : List Nat) (w : Work) (s s1 : RunState)
    (h : scrape_single_work bins w s = SingleResult.done s1) :
    s1 = s ∨ (w.id ∉ s.seen ∧ s1 = { s with
      sink := s.sink ++ [w]
      events := s.events ++ [Ev.wrote w.id, Ev.added w.id]
      seen := w.id :: s.seen
      seenFile := s.seenFile ++ [w.id]
      strata := bumpStrata bins w.kudos s.strata
      strataFile := bumpStrata bins w.kudos s.strata }) := by
  unfold scrape_single_work at h
  split at h
  · split at h
    · left; cases h; rfl
    · split at h
      · simp at h
      · right
        rename_i hseen _
        cases h
        exact ⟨hseen, rfl⟩
  · left; cases h; rfl

/-- Unfolding: an already-seen id is skipped without any other effect. -/
theorem processWorks_cons_skip (maxWC : Option Nat) (bins : List Nat) (w : Work)
    (rest : List Work) (s : RunState) (hm : w.id ∈ s.seen) :
    processWorks maxWC bins (w :: rest) s = processWorks maxWC bins rest s := by
  show (if w.id ∈ s.seen then processWorks maxWC bins rest s
    else match scrape_single_work bins w s with
      | .exitHalt => InnerResult.halted s
      | .done s1 =>
        if reachedMax maxWC (s1.workCount + 1) then
          InnerResult.done { s1 with workCount := s1.workCount + 1 } true
        else processWorks maxWC bins rest { s1 with workCount := s1.workCount + 1 }) = _
  rw [if_pos hm]

/-- Unfolding: an `exit(0)` inside `scrape_single_work` aborts the item loop
with the state as it was before that work. -/
theorem processWorks_cons_halted (maxWC : Option Nat) (bins : List Nat) (w : Work)
    (rest : List Work) (s : RunState) (hm : w.id ∉ s.seen)
    (hs : scrape_single_work bins w s = SingleResult.exitHalt) :
    processWorks maxWC bins (w :: rest) s = InnerResult.halted s := by
  show (if w.id ∈ s.seen then processWorks maxWC bins rest s
    else match scrape_single_work bins w s with
      | .exitHalt => InnerResult.halted s
      | .done s1 =>
        if reachedMax maxWC (s1.workCount + 1) then
          InnerResult.done { s1 with workCount := s1.workCount + 1 } true
        else processWorks maxWC bins rest { s1 with workCount := s1.workCount + 1 }) = _
  rw [if_neg hm, hs]

/-- Unfolding: a processed work increments `work_count` and then the
max-count stop condition decides between breaking and continuing. -/
theorem processWorks_cons_done (maxWC : Option Nat) (bins : List Nat) (w : Work)
    (rest : List Work) (s s1 : RunState) (hm : w.id ∉ s.seen)
    (hs : scrape_single_work bins w s = SingleResult.done s1) :
    processWorks maxWC bins (w :: rest) s =
      if reachedMax maxWC (s1.workCount + 1) then
        InnerResult.done { s1 with workCount := s1.workCount + 1 } true
      else processWorks maxWC bins rest { s1 with workCount := s1.workCount + 1 } := by
  show (if w.id ∈ s.seen then processWorks maxWC bins rest s
    else match scrape_single_work bins w s with
      | .exitHalt => InnerResult.halted s
      | .done s1 =>
        if reachedMax maxWC (s1.workCount + 1) then
          InnerResult.done { s1 with workCount := s1.workCount + 1 } true
        else processWorks maxWC bins rest { s1 with workCount := s1.workCount + 1 }) = _
  rw [if_neg hm, hs]

/-- Master preservation lemma for the `for work in sampled_works` loop: any
state property stable under a single emission and under the `work_count`
increment holds of the loop's final state. -/
theorem processWorks_preserves (maxWC : Option Nat) (bins : List Nat)
    (P : RunState → Prop)
    (hstep : ∀ w s s1, scrape_single_work bins w s = SingleResult.done s1 → P s → P s1)
    (hcount : ∀ s, P s → P { s with workCount := s.workCount + 1 }) :
    ∀ (ws : List Work) (s : RunState), P s →
      P (innerState (processWorks maxWC bins ws s)) := by
  intro ws
  induction ws with
  | nil => intro s h; exact h
  | cons w rest ih =>
    intro s h
    by_cases hm : w.id ∈ s.seen
    · rw [processWorks_cons_skip maxWC bins w rest s hm]; exact ih s h
    · cases hs : scrape_single_work bins w s with
      | exitHalt => rw [processWorks_cons_halted maxWC bins w rest s hm hs]; exact h
      | done s1 =>
        rw [processWorks_cons_done maxWC bins w rest s s1 hm hs]
        have h2 : P { s1 with workCount := s1.workCount + 1 } :=
          hcount s1 (hstep w s s1 hs h)
        by_cases hr : reachedMax maxWC (s1.workCount + 1) = true
        · rw [if_pos hr]; exact h2
        · rw [if_neg hr]; exact ih _ h2

/-- The state after the sampling phase of a page: new in-memory strata
counters, `last_visited_page.txt` overwritten with the current page. -/
def sampledState (cfg : Config) (env : Env) (works : List Work) (s : RunState) : RunState :=
  { s with
    strata := (apply_sampling cfg.sampling_strategy cfg.sampling_percentage works
      cfg.sampling_n cfg.kudos_bins env.pick (env.offset s.page) s.strata).2
    lastVisitedFile := some s.page }

/-- The works the sampling phase of a page hands to the item loop. -/
def sampledWorks (cfg : Config) (env : Env) (works : List Work) (s : RunState) : List Work :=
  (apply_sampling cfg.sampling_strategy cfg.sampling_percentage works
    cfg.sampling_n cfg.kudos_bins env.pick (env.offset s.page) s.strata).1

/-- Unfolding: the end-page bound fires before any fetch. -/
theorem scrapeLoop_pastEnd (cfg : Config) (env : Env) (fuel : Nat) (s : RunState)
    (h : pastEnd cfg.end_page s.page = true) :
    scrapeLoop cfg env (fuel + 1) s = (s, StopReason.completedRange) := by
  show (if pastEnd cfg.end_page s.page then (s, StopReason.completedRange)
    else match fetchPage (env.attempts s.page) 3 0 with
      | .rateLimitHalt => (s, StopReason.rateLimitPage)
      | .exhaustedHalt => (s, StopReason.exhausted)
      | .success works =>
        match processWorks cfg.max_work_count cfg.kudos_bins
            (sampledWorks cfg env works s) (sampledState cfg env works s) with
        | .halted s2 => (s2, StopReason.rateLimitDetail)
        | .done s2 true => (s2, StopReason.maxCount)
        | .done s2 false => scrapeLoop cfg env fuel { s2 with page := s2.page + 1 }) = _
  rw [if_pos h]

/-- Unfolding: a rate-limit-marker page fetch halts with the state intact. -/
theorem scrapeLoop_fetchRL (cfg : Config) (env : Env) (fuel : Nat) (s : RunState)
    (hpast : pastEnd cfg.end_page s.page = false)
    (hf : fetchPage (env.attempts s.page) 3 0 = PageOutcome.rateLimitHalt) :
    scrapeLoop cfg env (fuel + 1) s = (s, StopReason.rateLimitPage) := by
  show (if pastEnd cfg.end_page s.page then (s, StopReason.completedRange)
    else match fetchPage (env.attempts s.page) 3 0 with
      | .rateLimitHalt => (s, StopReason.rateLimitPage)
      | .exhaustedHalt => (s, StopReason.exhausted)
      | .success works =>
        match processWorks cfg.max_work_count cfg.kudos_bins
            (sampledWorks cfg env works s) (sampledState cfg env works s) with
        | .halted s2 => (s2, StopReason.rateLimitDetail)
        | .done s2 true => (s2, StopReason.maxCount)
        | .done s2 false => scrapeLoop cfg env fuel { s2 with page := s2.page + 1 }) = _
  rw [if_neg (by simp [hpast]), hf]

/-- Unfolding: exhausting the three fetch attempts halts with the state
intact. -/
theorem scrapeLoop_fetchExhausted (cfg : Config) (env : Env) (fuel : Nat) (s : RunState)
    (hpast : pastEnd cfg.end_page s.page = false)
    (hf : fetchPage (env.attempts s.page) 3 0 = PageOutcome.exhaustedHalt) :
    scrapeLoop cfg env (fuel + 1) s = (s, StopReason.exhausted) := by
  show (if pastEnd cfg.end_page s.page then (s, StopReason.completedRange)
    else match fetchPage (env.attempts s.page) 3 0 with
      | .rateLimitHalt => (s, StopReason.rateLimitPage)
      | .exhaustedHalt => (s, StopReason.exhausted)
      | .success works =>
        match processWorks cfg.max_work_count cfg.kudos_bins
            (sampledWorks cfg env works s) (sampledState cfg env works s) with
        | .halted s2 => (s2, StopReason.rateLimitDetail)
        | .done s2 true => (s2, StopReason.maxCount)
        | .done s2 false => scrapeLoop cfg env fuel { s2 with page := s2.page + 1 }) = _
  rw [if_neg (by simp [hpast]), hf]

/-- Unfolding: a successful page fetch runs sampling, writes the page file,
runs the item loop, and dispatches on its result. -/
theorem scrapeLoop_fetchSuccess (cfg : Config) (env : Env) (fuel : Nat) (s : RunState)
    (works : List Work) (hpast : pastEnd cfg.end_page s.page = false)
    (hf : fetchPage (env.attempts s.page) 3 0 = PageOutcome.success works) :
    scrapeLoop cfg env (fuel + 1) s =
      match processWorks cfg.max_work_count cfg.kudos_bins
          (sampledWorks cfg env works s) (sampledState cfg env works s) with
      | .halted s2 => (s2, StopReason.rateLimitDetail)
      | .done s2 true => (s2, StopReason.maxCount)
      | .done s2 false => scrapeLoop cfg env fuel { s2 with page := s2.page + 1 } := by
  show (if pastEnd cfg.end_page s.page then (s, StopReason.completedRange)
    else match fetchPage (env.attempts s.page) 3 0 with
      | .rateLimitHalt => (s, StopReason.rateLimitPage)
      | .exhaustedHalt => (s, StopReason.exhausted)
      | .success works =>
        match processWorks cfg.max_work_count cfg.kudos_bins
            (sampledWorks cfg env works s) (sampledState cfg env works s) with
        | .halted s2 => (s2, StopReason.rateLimitDetail)
        | .done s2 true => (s2, StopReason.maxCount)
        | .done s2 false => scrapeLoop cfg env fuel { s2 with page := s2.page + 1 }) = _
  rw [if_neg (by simp [hpast]), hf]

/-- Master preservation lemma for the page loop: a property stable under the
sampling-phase update (new in-memory strata counters plus the
`last_visited_page.txt` write), under emissions, under the count increment
and under the page advance holds of the run's final state. -/
theorem scrapeLoop_preserves (cfg : Config) (env : Env) (P : RunState → Prop)
    (hsamp : ∀ s works, P s →
      P { s with
        strata := (apply_sampling cfg.sampling_strategy cfg.sampling_percentage works
          cfg.sampling_n cfg.kudos_bins env.pick (env.offset s.page) s.strata).2
        lastVisitedFile := some s.page })
    (hstep : ∀ w s s1, scrape_single_work cfg.kudos_bins w s = SingleResult.done s1 →
      P s → P s1)
    (hcount : ∀ s, P s → P { s with workCount := s.workCount + 1 })
    (hpage : ∀ s, P s → P { s with page := s.page + 1 }) :
    ∀ (fuel : Nat) (s : RunState), P s → P (scrapeLoop cfg env fuel s).1 := by
  intro fuel
  induction fuel with
  | zero => intro s h; exact h
  | succ fuel ih =>
    intro s h
    by_cases hpast : pastEnd cfg.end_page s.page = true
    · rw [scrapeLoop_pastEnd cfg env fuel s hpast]; exact h
    · rw [Bool.not_eq_true] at hpast
      cases hf : fetchPage (env.attempts s.page) 3 0 with
      | rateLimitHalt => rw [scrapeLoop_fetchRL cfg env fuel s hpast hf]; exact h
      | exhaustedHalt => rw [scrapeLoop_fetchExhausted cfg env fuel s hpast hf]; exact h
      | success works =>
        rw [scrapeLoop_fetchSuccess cfg env fuel s works hpast hf]
        have h1 : P (sampledState cfg env works s) := hsamp s works h
        have h2 := processWorks_preserves cfg.max_work_count cfg.kudos_bins P hstep hcount
          (sampledWorks cfg env works s) _ h1
        cases hp : processWorks cfg.max_work_count cfg.kudos_bins
            (sampledWorks cfg env works s) (sampledState cfg env works s) with
        | halted s2 =>
          rw [hp] at h2
          simpa [innerState] using h2
        | done s2 stop =>
          rw [hp] at h2
          simp only [innerState] at h2
          cases stop with
          | true => simpa using h2
          | false => simpa using ih _ (hpage s2 h2)

/-! The seen-set / sink invariant (C4). -/

/-- The controller's deduplication invariant, relative to the seen set
`seen0` loaded at startup: the in-memory seen set is exactly `seen0` plus the
ids written this run; the ids written this run are pairwise distinct and none
was in `seen0`; `seen_work_ids.txt` is `seen0` extended by exactly the
written ids in write order; and the event trace is a `wrote`/`added` pair,
in that order, per written record. -/
def SeenInv (seen0 : List String) (s : RunState) : Prop :=
  (∀ x, x ∈ s.seen ↔ (x ∈ seen0 ∨ x ∈ sinkIds s)) ∧
  (sinkIds s).Nodup ∧
  (∀ x, x ∈ sinkIds s → x ∉ seen0) ∧
  s.seenFile = seen0 ++ sinkIds s ∧
  s.events = joinL (s.sink.map (fun w => [Ev.wrote w.id, Ev.added w.id]))

theorem seenInv_emit (seen0 : List String) (bins : List Nat) (w : Work)
    (s s1 : RunState) (hs : scrape_single_work bins w s = SingleResult.done s1)
    (h : SeenInv seen0 s) : SeenInv seen0 s1 := by
  obtain ⟨hiff, hnd, hnew, hfile, hev⟩ := h
  rcases scrape_single_work_done bins w s s1 hs with h1 | ⟨hm, h1⟩
  · subst h1; exact ⟨hiff, hnd, hnew, hfile, hev⟩
  · subst h1
    have hid1 : w.id ∉ seen0 := fun hin => hm ((hiff w.id).mpr (Or.inl hin))
    have hid2 : w.id ∉ sinkIds s := fun hin => hm ((hiff w.id).mpr (Or.inr hin))
    have hids : sinkIds { s with
        sink := s.sink ++ [w]
        events := s.events ++ [Ev.wrote w.id, Ev.added w.id]
        seen := w.id :: s.seen
        seenFile := s.seenFile ++ [w.id]
        strata := bumpStrata bins w.kudos s.strata
        strataFile := bumpStrata bins w.kudos s.strata } = sinkIds s ++ [w.id] := by
      simp [sinkIds]
    refine ⟨?_, ?_, ?_, ?_, ?_⟩
    · intro x
      rw [hids]
      constructor
      · intro hx
        rcases List.mem_cons.mp hx with hx | hx
        · exact Or.inr (by simp [hx])
        · rcases (hiff x).mp hx with hx2 | hx2
          · exact Or.inl hx2
          · exact Or.inr (by simp [hx2])
      · intro hx
        rcases hx with hx | hx
        · exact List.mem_cons.mpr (Or.inr ((hiff x).mpr (Or.inl hx)))
        · rcases List.mem_append.mp hx with hx2 | hx2
          · exact List.mem_cons.mpr (Or.inr ((hiff x).mpr (Or.inr hx2)))
          · simp at hx2
            simp [hx2]
    · rw [hids]
      simp [List.nodup_append, hnd, hid2]
    · intro x hx
      rw [hids] at hx
      rcases List.mem_append.mp hx with hx | hx
      · exact hnew x hx
      · simp at hx
        rw [hx]
        exact hid1
    · rw [hids]
      show s.seenFile ++ [w.id] = seen0 ++ (sinkIds s ++ [w.id])
      rw [hfile, List.append_assoc]
    · show s.events ++ [Ev.wrote w.id, Ev.added w.id]
        = joinL ((s.sink ++ [w]).map (fun w => [Ev.wrote w.id, Ev.added w.id]))
      rw [List.map_append, joinL_append, hev]
      simp [joinL]

/-- The seen-set invariant holds of every run's final state. -/
theorem scrapeLoop_seenInv (cfg : Config) (env : Env) (fuel startP : Nat)
    (seen0 : List String) (lvp0 : Option Nat) (sf0 : Nat → Nat) :
    SeenInv seen0 (scrapeLoop cfg env fuel (initState startP seen0 lvp0 sf0)).1 := by
  have hinit : SeenInv seen0 (initState startP seen0 lvp0 sf0) := by
    refine ⟨?_, ?_, ?_, ?_, ?_⟩ <;> simp [initState, sinkIds, joinL]
  refine scrapeLoop_preserves cfg env (SeenInv seen0) ?_ ?_ ?_ ?_ fuel _ hinit
  · intro s works h
    obtain ⟨hiff, hnd, hnew, hfile, hev⟩ := h
    exact ⟨hiff, hnd, hnew, hfile, hev⟩
  · exact fun w s s1 hs h => seenInv_emit seen0 cfg.kudos_bins w s s1 hs h
  · intro s h
    obtain ⟨hiff, hnd, hnew, hfile, hev⟩ := h
    exact ⟨hiff, hnd, hnew, hfile, hev⟩
  · intro s h
    obtain ⟨hiff, hnd, hnew, hfile, hev⟩ := h
    exact ⟨hiff, hnd, hnew, hfile, hev⟩

/-- C4: in every run (a resumed run being one whose loaded seen set `seen0`
already covers the previously written records), an id enters the seen set
exactly when a record for it is written to the sink: the final seen set is
`seen0` plus the written ids; the written ids are pairwise distinct and
disjoint from `seen0`; the persisted seen file extends `seen0` by exactly the
written ids, so the next resumption again starts with a covering seen set;
the event trace shows each record's sink write immediately followed by — and
so strictly preceding — the corresponding seen-set add; and appending the new
records to any previously written ones covered by `seen0` keeps all sink ids
pairwise distinct (no identifier ever appears in two sink records across the
run and its resumptions). -/
theorem claim4_seen_set_exclusivity (cfg : Config) (env : Env) (fuel startP : Nat)
    (seen0 : List String) (lvp0 : Option Nat) (sf0 : Nat → Nat) :
    (∀ x, x ∈ (scrapeLoop cfg env fuel (initState startP seen0 lvp0 sf0)).1.seen ↔
      (x ∈ seen0 ∨ x ∈ sinkIds (scrapeLoop cfg env fuel (initState startP seen0 lvp0 sf0)).1)) ∧
    (sinkIds (scrapeLoop cfg env fuel (initState startP seen0 lvp0 sf0)).1).Nodup ∧
    (∀ x, x ∈ sinkIds (scrapeLoop cfg env fuel (initState startP seen0 lvp0 sf0)).1 →
      x ∉ seen0) ∧
    (scrapeLoop cfg env fuel (initState startP seen0 lvp0 sf0)).1.seenFile =
      seen0 ++ sinkIds (scrapeLoop cfg env fuel (initState startP seen0 lvp0 sf0)).1 ∧
    (scrapeLoop cfg env fuel (initState startP seen0 lvp0 sf0)).1.events =
      joinL ((scrapeLoop cfg env fuel (initState startP seen0 lvp0 sf0)).1.sink.map
        (fun w => [Ev.wrote w.id, Ev.added w.id])) ∧
    (∀ prior : List String, prior.Nodup → (∀ x ∈ prior, x ∈ seen0) →
      (prior ++ sinkIds (scrapeLoop cfg env fuel (initState startP seen0 lvp0 sf0)).1).Nodup) := by
  obtain ⟨hiff, hnd, hnew, hfile, hev⟩ :=
    scrapeLoop_seenInv cfg env fuel startP seen0 lvp0 sf0
  refine ⟨hiff, hnd, hnew, hfile, hev, ?_⟩
  intro prior hprior hsub
  rw [List.nodup_append]
  refine ⟨hprior, hnd, ?_⟩
  intro x hx hx2
  exact hnew x hx2 (hsub x hx)

/-- Configuration for the C4 witness: one page, no sampling, no max count. -/
def cfgC4 : Config :=
  { start_page := 1, end_page := some 1, max_work_count := none
    sampling_strategy := Strategy.noSampling, sampling_percentage := 50
    sampling_n := 2, kudos_bins := [0, 100] }

/-- Environment for the C4 witness: every page fetch succeeds with a single
work of id "1". -/
def envC4 : Env :=
  { attempts := fun _ _ => Attempt.resp 200 false [⟨"1", true, 50, false⟩]
    pick := fun l k => l.take k, offset := fun _ => 0 }

theorem claim4_seen_set_exclusivity_witness :
    (∀ x, x ∈ (scrapeLoop cfgC4 envC4 2 (initState 1 ["0"] none (fun _ => 0))).1.seen ↔
      (x ∈ ["0"] ∨
        x ∈ sinkIds (scrapeLoop cfgC4 envC4 2 (initState 1 ["0"] none (fun _ => 0))).1)) ∧
    (scrapeLoop cfgC4 envC4 2 (initState 1 ["0"] none (fun _ => 0))).1.seenFile =
      ["0"] ++ sinkIds (scrapeLoop cfgC4 envC4 2 (initState 1 ["0"] none (fun _ => 0))).1 ∧
    (["0"] ++ sinkIds (scrapeLoop cfgC4 envC4 2 (initState 1 ["0"] none (fun _ => 0))).1).Nodup :=
  ⟨(claim4_seen_set_exclusivity cfgC4 envC4 2 1 ["0"] none (fun _ => 0)).1,
   (claim4_seen_set_exclusivity cfgC4 envC4 2 1 ["0"] none (fun _ => 0)).2.2.2.1,
   (claim4_seen_set_exclusivity cfgC4 envC4 2 1 ["0"] none (fun _ => 0)).2.2.2.2.2
     ["0"] (by decide) (by decide)⟩

/-! Early-stop exit behavior (C2). -/

/-- Configuration of the C2 counterexample: `max_work_count = 1`. -/
def cfgC2 : Config :=
  { start_page := 1, end_page := none, max_work_count := some 1
    sampling_strategy := Strategy.noSampling, sampling_percentage := 50
    sampling_n := 2, kudos_bins := [0, 100] }

/-- Environment of the C2 counterexample: every fetch succeeds with one
work. -/
def envC2 : Env :=
  { attempts := fun _ _ => Attempt.resp 200 false [⟨"1", true, 50, false⟩]
    pick := fun l k => l.take k, offset := fun _ => 0 }

/-- C2 counterexample: reaching the configured max item count mid-run makes
`scrape_works` return normally, after which `main` DELETES
`last_visited_page.txt`, `seen_work_ids.txt` and `strata_counts.json` — the
run emitted a record, its state files held the resumable position and seen
id at the moment of the stop, and yet the disk ends with no persisted state,
contradicting "the process terminates leaving the persisted resumable state
on disk" for the max-count stop. -/
theorem claim2_maxcount_state_cleared_cex :
    (mainRun cfgC2 envC2 3 none [] (fun _ => 0)).2 = StopReason.maxCount ∧
    (mainRun cfgC2 envC2 3 none [] (fun _ => 0)).1.sink = [⟨"1", true, 50, false⟩] ∧
    (mainRun cfgC2 envC2 3 none [] (fun _ => 0)).1.seenFile = ["1"] ∧
    (mainRun cfgC2 envC2 3 none [] (fun _ => 0)).1.lastVisitedFile = some 1 ∧
    mainDisk (mainRun cfgC2 envC2 3 none [] (fun _ => 0)).1
        (mainRun cfgC2 envC2 3 none [] (fun _ => 0)).2 =
      { lastVisitedFile := none, seenFile := none, strataFile := none } :=
  ⟨by decide, by decide, by decide, by decide, rfl⟩

/-- C2 (amended): every modelled `exit(0)` halt (rate-limit marker on a page
or work fetch, fetch retries exhausted) terminates the process before
`main`'s cleanup code, leaving the resumable state on disk — the page file as
the run last wrote it and the seen file holding the loaded ids plus exactly
the ids written this run; the state files are cleared exactly after the two
normal returns of the page loop, which are full-range completion AND the
max-count stop (not only "full, unsampled-range completion"). -/
theorem claim2_halts_leave_resumable_state (cfg : Config) (env : Env) (fuel : Nat)
    (lvp0 : Option Nat) (seen0 : List String) (sf0 : Nat → Nat) :
    ((mainRun cfg env fuel lvp0 seen0 sf0).2 = StopReason.rateLimitPage ∨
      (mainRun cfg env fuel lvp0 seen0 sf0).2 = StopReason.exhausted ∨
      (mainRun cfg env fuel lvp0 seen0 sf0).2 = StopReason.rateLimitDetail →
      mainDisk (mainRun cfg env fuel lvp0 seen0 sf0).1 (mainRun cfg env fuel lvp0 seen0 sf0).2 =
        { lastVisitedFile := (mainRun cfg env fuel lvp0 seen0 sf0).1.lastVisitedFile
          seenFile := some (seen0 ++ sinkIds (mainRun cfg env fuel lvp0 seen0 sf0).1)
          strataFile := some (mainRun cfg env fuel lvp0 seen0 sf0).1.strataFile }) ∧
    ((mainRun cfg env fuel lvp0 seen0 sf0).2 = StopReason.completedRange ∨
      (mainRun cfg env fuel lvp0 seen0 sf0).2 = StopReason.maxCount →
      mainDisk (mainRun cfg env fuel lvp0 seen0 sf0).1 (mainRun cfg env fuel lvp0 seen0 sf0).2 =
        { lastVisitedFile := none, seenFile := none, strataFile := none }) := by
  have hfile : (mainRun cfg env fuel lvp0 seen0 sf0).1.seenFile =
      seen0 ++ sinkIds (mainRun cfg env fuel lvp0 seen0 sf0).1 :=
    (scrapeLoop_seenInv
      { cfg with start_page := effectiveStartPage cfg, end_page := effectiveEndPage cfg }
      env fuel (startPageUsed (effectiveStartPage cfg) lvp0) seen0 lvp0 sf0).2.2.2.1
  constructor
  · intro hr
    have hn : isNormalReturn (mainRun cfg env fuel lvp0 seen0 sf0).2 = false := by
      rcases hr with h | h | h <;> rw [h] <;> rfl
    rw [mainDisk, hn]
    simp only [Bool.false_eq_true, if_false, hfile]
  · intro hr
    have hn : isNormalReturn (mainRun cfg env fuel lvp0 seen0 sf0).2 = true := by
      rcases hr with h | h <;> rw [h] <;> rfl
    rw [mainDisk, hn]
    simp only [if_true]

/-- Environment for the C2 witness: the very first page fetch is
rate-limited by the marker phrase. -/
def envC2w : Env :=
  { attempts := fun _ _ => Attempt.resp 200 true []
    pick := fun l k => l.take k, offset := fun _ => 0 }

theorem claim2_halts_leave_resumable_state_witness :
    (mainRun cfgC4 envC2w 1 none [] (fun _ => 0)).2 = StopReason.rateLimitPage ∧
    mainDisk (mainRun cfgC4 envC2w 1 none [] (fun _ => 0)).1
        (mainRun cfgC4 envC2w 1 none [] (fun _ => 0)).2 =
      { lastVisitedFile := (mainRun cfgC4 envC2w 1 none [] (fun _ => 0)).1.lastVisitedFile
        seenFile := some ([] ++ sinkIds (mainRun cfgC4 envC2w 1 none [] (fun _ => 0)).1)
        strataFile := some (mainRun cfgC4 envC2w 1 none [] (fun _ => 0)).1.strataFile } :=
  ⟨by decide,
   (claim2_halts_leave_resumable_state cfgC4 envC2w 1 none [] (fun _ => 0)).1
     (Or.inl (by decide))⟩

/-! The persisted current page (C6). -/

/-- The item loop never touches `page` or `last_visited_page.txt`. -/
theorem processWorks_page_lvp (maxWC : Option Nat) (bins : List Nat)
    (ws : List Work) (s : RunState) :
    (innerState (processWorks maxWC bins ws s)).page = s.page ∧
    (innerState (processWorks maxWC bins ws s)).lastVisitedFile = s.lastVisitedFile := by
  refine processWorks_preserves maxWC bins
    (fun t => t.page = s.page ∧ t.lastVisitedFile = s.lastVisitedFile) ?_ ?_ ws s ⟨rfl, rfl⟩
  · intro w t t1 hs h
    rcases scrape_single_work_done bins w t t1 hs with h1 | ⟨_, h1⟩ <;> subst h1 <;> exact h
  · intro t h
    exact h

/-- Configuration for the C6 theorems. -/
def cfgC6 : Config :=
  { start_page := 1, end_page := none, max_work_count := none
    sampling_strategy := Strategy.noSampling, sampling_percentage := 50
    sampling_n := 2, kudos_bins := [0, 100] }

/-- Environment of the C6 counterexample: page 1 succeeds with one work,
every later page fetch is rate-limited by the marker. -/
def envC6 : Env :=
  { attempts := fun p _ => if p = 1 then Attempt.resp 200 false [⟨"1", true, 50, false⟩]
      else Attempt.resp 200 true []
    pick := fun l k => l.take k, offset := fun _ => 0 }

/-- C6 counterexample: after page 1 is fully processed (its one sampled work
emitted) the controller advances to page 2, but the persisted
`last_visited_page.txt` still says 1 when the run halts fetching page 2 — the
persisted value names a page that is guaranteed fully processed and does not
reflect the advance, contradicting "after a page is fully processed and the
controller advances by 1, the persisted value reflects the advance". -/
theorem claim6_advance_not_persisted_cex :
    (scrapeLoop cfgC6 envC6 3 (initState 1 [] none (fun _ => 0))).2 =
      StopReason.rateLimitPage ∧
    (scrapeLoop cfgC6 envC6 3 (initState 1 [] none (fun _ => 0))).1.page = 2 ∧
    (scrapeLoop cfgC6 envC6 3 (initState 1 [] none (fun _ => 0))).1.lastVisitedFile = some 1 ∧
    (scrapeLoop cfgC6 envC6 3 (initState 1 [] none (fun _ => 0))).1.sink =
      [⟨"1", true, 50, false⟩] := by
  decide

/-- C6 (amended): `last_visited_page.txt` always names the most recent page
whose emission phase began (it is written right after a page's successful
fetch and sampling).  On a mid-page stop — a rate-limited work fetch or the
max-count break — it names exactly the interrupted page, the in-memory page
not yet advanced.  On stops taken between emission phases (rate-limited or
exhausted page fetch, end-of-range, fuel out) the state either is untouched
(no page began) or the persisted value names the previous, fully processed
page: the page counter has advanced past it but the persisted value has not,
so resume re-attempts a completed page rather than ever skipping an
incomplete one. -/
theorem claim6_lvp_names_last_emission_page (cfg : Config) (env : Env) :
    ∀ (fuel : Nat) (s0 : RunState),
      ((scrapeLoop cfg env fuel s0).2 = StopReason.rateLimitDetail ∨
        (scrapeLoop cfg env fuel s0).2 = StopReason.maxCount →
        (scrapeLoop cfg env fuel s0).1.lastVisitedFile =
          some (scrapeLoop cfg env fuel s0).1.page) ∧
      ((scrapeLoop cfg env fuel s0).2 = StopReason.rateLimitPage ∨
        (scrapeLoop cfg env fuel s0).2 = StopReason.exhausted ∨
        (scrapeLoop cfg env fuel s0).2 = StopReason.completedRange ∨
        (scrapeLoop cfg env fuel s0).2 = StopReason.outOfFuel →
        ((scrapeLoop cfg env fuel s0).1.lastVisitedFile = s0.lastVisitedFile ∧
          (scrapeLoop cfg env fuel s0).1.page = s0.page) ∨
        ((scrapeLoop cfg env fuel s0).1.lastVisitedFile =
            some ((scrapeLoop cfg env fuel s0).1.page - 1) ∧
          s0.page < (scrapeLoop cfg env fuel s0).1.page)) := by
  intro fuel
  induction fuel with
  | zero =>
    intro s0
    constructor
    · intro h
      rcases h with h | h <;> exact absurd h (by simp [scrapeLoop])
    · intro _
      exact Or.inl ⟨rfl, rfl⟩
  | succ fuel ih =>
    intro s0
    by_cases hpast : pastEnd cfg.end_page s0.page = true
    · rw [scrapeLoop_pastEnd cfg env fuel s0 hpast]
      constructor
      · intro h
        rcases h with h | h <;> exact absurd h (by simp)
      · intro _
        exact Or.inl ⟨rfl, rfl⟩
    · rw [Bool.not_eq_true] at hpast
      cases hf : fetchPage (env.attempts s0.page) 3 0 with
      | rateLimitHalt =>
        rw [scrapeLoop_fetchRL cfg env fuel s0 hpast hf]
        constructor
        · intro h
          rcases h with h | h <;> exact absurd h (by simp)
        · intro _
          exact Or.inl ⟨rfl, rfl⟩
      | exhaustedHalt =>
        rw [scrapeLoop_fetchExhausted cfg env fuel s0 hpast hf]
        constructor
        · intro h
          rcases h with h | h <;> exact absurd h (by simp)
        · intro _
          exact Or.inl ⟨rfl, rfl⟩
      | success works =>
        rw [scrapeLoop_fetchSuccess cfg env fuel s0 works hpast hf]
        have hpl := processWorks_page_lvp cfg.max_work_count cfg.kudos_bins
          (sampledWorks cfg env works s0) (sampledState cfg env works s0)
        cases hp : processWorks cfg.max_work_count cfg.kudos_bins
            (sampledWorks cfg env works s0) (sampledState cfg env works s0) with
        | halted s2 =>
          rw [hp] at hpl
          have h1 : s2.page = s0.page := hpl.1
          have h2 : s2.lastVisitedFile = some s0.page := hpl.2
          constructor
          · intro _
            show s2.lastVisitedFile = some s2.page
            rw [h1, h2]
          · intro h
            rcases h with h | h | h | h <;> exact absurd h (by simp)
        | done s2 stop =>
          rw [hp] at hpl
          have h1 : s2.page = s0.page := hpl.1
          have h2 : s2.lastVisitedFile = some s0.page := hpl.2
          cases stop with
          | true =>
            constructor
            · intro _
              show s2.lastVisitedFile = some s2.page
              rw [h1, h2]
            · intro h
              rcases h with h | h | h | h <;> exact absurd h (by simp)
          | false =>
            have hgoal : (match (InnerResult.done s2 false : InnerResult) with
                | .halted s3 => (s3, StopReason.rateLimitDetail)
                | .done s3 true => (s3, StopReason.maxCount)
                | .done s3 false => scrapeLoop cfg env fuel { s3 with page := s3.page + 1 }) =
                scrapeLoop cfg env fuel { s2 with page := s2.page + 1 } := rfl
            rw [hgoal]
            constructor
            · exact (ih { s2 with page := s2.page + 1 }).1
            · intro h
              rcases (ih { s2 with page := s2.page + 1 }).2 h with ⟨g1, g2⟩ | ⟨g1, g2⟩
              · right
                have g3 : (scrapeLoop cfg env fuel
                    { s2 with page := s2.page + 1 }).1.page = s2.page + 1 := g2
                constructor
                · rw [g1, g3, h2, h1]
                  simp
                · rw [g3]
                  omega
              · right
                refine ⟨g1, ?_⟩
                have g3 : s2.page + 1 < (scrapeLoop cfg env fuel
                    { s2 with page := s2.page + 1 }).1.page := g2
                omega


/-- Environment for the C6 witness: page 1 succeeds, but the work's own page
fetch hits the rate-limit marker, halting mid-page. -/
def envC6w : Env :=
  { attempts := fun _ _ => Attempt.resp 200 false [⟨"1", true, 50, true⟩]
    pick := fun l k => l.take k, offset := fun _ => 0 }

theorem claim6_lvp_names_last_emission_page_witness :
    (scrapeLoop cfgC6 envC6w 2 (initState 1 [] none (fun _ => 0))).2 =
      StopReason.rateLimitDetail ∧
    (scrapeLoop cfgC6 envC6w 2 (initState 1 [] none (fun _ => 0))).1.lastVisitedFile =
      some (scrapeLoop cfgC6 envC6w 2 (initState 1 [] none (fun _ => 0))).1.page :=
  ⟨by decide,
   (claim6_lvp_names_last_emission_page cfgC6 envC6w 2
     (initState 1 [] none (fun _ => 0))).1 (Or.inl (by decide))⟩

/-! The max-count stop (C7). -/

/-- Configuration of the C7 counterexample: `max_work_count = 1`. -/
def cfgC7 : Config :=
  { start_page := 1, end_page := none, max_work_count := some 1
    sampling_strategy := Strategy.noSampling, sampling_percentage := 50
    sampling_n := 2, kudos_bins := [0, 100] }

/-- Environment of the C7 counterexample: the page's first work has no title
element (so `scrape_single_work` returns without writing anything), the
second is perfectly scrapable. -/
def envC7 : Env :=
  { attempts := fun _ _ => Attempt.resp 200 false
      [⟨"t", false, 0, false⟩, ⟨"2", true, 50, false⟩]
    pick := fun l k => l.take k, offset := fun _ => 0 }

/-- C7 counterexample: `work_count` is incremented for every processed
sampled item, emitting or not — a title-less work emits no record yet counts
toward `max_work_count`, so with `max_work_count = 1` the run stops having
emitted 0 records, not "exactly max_item_count records". -/
theorem claim7_counter_counts_non_emitting_cex :
    (scrapeLoop cfgC7 envC7 2 (initState 1 [] none (fun _ => 0))).2 = StopReason.maxCount ∧
    (scrapeLoop cfgC7 envC7 2 (initState 1 [] none (fun _ => 0))).1.sink = [] ∧
    (scrapeLoop cfgC7 envC7 2 (initState 1 [] none (fun _ => 0))).1.workCount = 1 := by
  decide

/-- One emission of a fully scrapable, unseen work. -/
theorem scrape_single_work_emits (bins : List Nat) (w : Work) (s : RunState)
    (ht : w.hasTitle = true) (hrl : w.rlOnDetail = false) (hm : w.id ∉ s.seen) :
    scrape_single_work bins w s = SingleResult.done { s with
      sink := s.sink ++ [w]
      events := s.events ++ [Ev.wrote w.id, Ev.added w.id]
      seen := w.id :: s.seen
      seenFile := s.seenFile ++ [w.id]
      strata := bumpStrata bins w.kudos s.strata
      strataFile := bumpStrata bins w.kudos s.strata } := by
  unfold scrape_single_work
  rw [ht]
  rw [if_pos rfl, if_neg hm, hrl]
  rw [if_neg (by simp)]

/-- The item loop on a page of fully scrapable, pairwise distinct, unseen
works under a truthy `max_work_count = k`: if the page holds at least the
`k - work_count` still-allowed items, the loop breaks with `should_break`
set, having emitted exactly the first `k - work_count` works of the sampled
list, never touching `page` or the page file. -/
theorem processWorks_all_emit (bins : List Nat) (k : Nat) (hk0 : 0 < k) :
    ∀ (ws : List Work) (s : RunState),
      (∀ w ∈ ws, w.hasTitle = true ∧ w.rlOnDetail = false) →
      (ws.map Work.id).Nodup →
      (∀ w ∈ ws, w.id ∉ s.seen) →
      s.workCount < k → k ≤ s.workCount + ws.length →
      ∃ s2 : RunState, processWorks (some k) bins ws s = InnerResult.done s2 true ∧
        s2.sink = s.sink ++ ws.take (k - s.workCount) ∧
        s2.lastVisitedFile = s.lastVisitedFile ∧
        s2.page = s.page ∧
        s2.workCount = k := by
  intro ws
  induction ws with
  | nil =>
    intro s _ _ _ hlt hle
    exact absurd hle (by simp; omega)
  | cons w rest ih =>
    intro s hall hnd hfresh hlt hle
    have hw := hall w (List.mem_cons_self w rest)
    have hm : w.id ∉ s.seen := hfresh w (List.mem_cons_self w rest)
    have hs := scrape_single_work_emits bins w s hw.1 hw.2 hm
    rw [processWorks_cons_done (some k) bins w rest s _ hm hs]
    by_cases hreach : k ≤ s.workCount + 1
    · have hkeq : k = s.workCount + 1 := by omega
      rw [if_pos (by simp [reachedMax, truthyNat]; omega)]
      refine ⟨_, rfl, ?_, rfl, rfl, ?_⟩
      · show s.sink ++ [w] = s.sink ++ (w :: rest).take (k - s.workCount)
        have : k - s.workCount = 1 := by omega
        rw [this]
        simp
      · show s.workCount + 1 = k
        omega
    · rw [if_neg (by simp [reachedMax, truthyNat]; omega)]
      have hrest := ih { s with
          sink := s.sink ++ [w]
          events := s.events ++ [Ev.wrote w.id, Ev.added w.id]
          seen := w.id :: s.seen
          seenFile := s.seenFile ++ [w.id]
          strata := bumpStrata bins w.kudos s.strata
          strataFile := bumpStrata bins w.kudos s.strata
          workCount := s.workCount + 1 }
        (fun v hv => hall v (List.mem_cons_of_mem w hv))
        (by simpa using hnd.of_cons)
        ?_ (by simpa using by omega) (by simp at hle ⊢; omega)
      · obtain ⟨s2, hp, hsink, hlvp, hpage, hcount⟩ := hrest
        refine ⟨s2, hp, ?_, hlvp, hpage, hcount⟩
        rw [hsink]
        show (s.sink ++ [w]) ++ rest.take (k - (s.workCount + 1)) =
          s.sink ++ (w :: rest).take (k - s.workCount)
        have h1 : k - s.workCount = (k - (s.workCount + 1)) + 1 := by omega
        rw [h1, List.take_succ_cons, List.append_assoc]
        rfl
      · intro v hv
        have hv1 : v.id ∉ s.seen := hfresh v (List.mem_cons_of_mem w hv)
        have hv2 : v.id ≠ w.id := by
          intro heq
          have : w.id ∈ rest.map Work.id := by
            rw [← heq]
            exact List.mem_map_of_mem Work.id hv
          rw [List.map_cons] at hnd
          exact (List.nodup_cons.mp hnd).1 this
        show v.id ∉ w.id :: s.seen
        intro hmem
        rcases List.mem_cons.mp hmem with h | h
        · exact hv2 h
        · exact hv1 h

/-- C7 (amended): the per-item counter checked against `max_work_count`
counts processed sampled items, not emissions (see the counterexample for the
divergence).  When every sampled item on the page actually emits — titles
present, ids fresh and distinct, no rate-limited work fetch — the two
coincide: with a truthy `max_work_count = k` and a page of at least `k`
sampled items, the run stops mid-page immediately after the `k`-th emission,
emits exactly the first `k` sampled works, and halts with the in-memory page
and the persisted current page both still naming the interrupted page
(`main`'s cleanup then removes the state files, as settled under C2). -/
theorem claim7_maxcount_stops_midpage (cfg : Config) (env : Env) (fuel k p0 : Nat)
    (seen0 : List String) (lvp0 : Option Nat) (sf0 : Nat → Nat) (ws : List Work)
    (hk : cfg.max_work_count = some k) (hk0 : 0 < k)
    (hend : cfg.end_page = none)
    (hstrat : cfg.sampling_strategy = Strategy.noSampling)
    (hf : fetchPage (env.attempts p0) 3 0 = PageOutcome.success ws)
    (hall : ∀ w ∈ ws, w.hasTitle = true ∧ w.rlOnDetail = false)
    (hnd : (ws.map Work.id).Nodup)
    (hfresh : ∀ w ∈ ws, w.id ∉ seen0)
    (hlen : k ≤ ws.length) :
    ∃ s2 : RunState,
      scrapeLoop cfg env (fuel + 1) (initState p0 seen0 lvp0 sf0) =
        (s2, StopReason.maxCount) ∧
      s2.sink = ws.take k ∧
      s2.workCount = k ∧
      s2.lastVisitedFile = some p0 ∧
      s2.page = p0 := by
  have hpast : pastEnd cfg.end_page (initState p0 seen0 lvp0 sf0).page = false := by
    rw [hend]; rfl
  have hf2 : fetchPage (env.attempts (initState p0 seen0 lvp0 sf0).page) 3 0 =
      PageOutcome.success ws := hf
  have hsw : sampledWorks cfg env ws (initState p0 seen0 lvp0 sf0) = ws := by
    simp [sampledWorks, hstrat, apply_sampling]
  obtain ⟨s2, hp, hsink, hlvp, hpage, hcount⟩ :=
    processWorks_all_emit cfg.kudos_bins k hk0 ws
      (sampledState cfg env ws (initState p0 seen0 lvp0 sf0))
      hall hnd (fun v hv => hfresh v hv) hk0
      (show k ≤ 0 + ws.length by omega)
  refine ⟨s2, ?_, ?_, hcount, ?_, ?_⟩
  · rw [scrapeLoop_fetchSuccess cfg env fuel (initState p0 seen0 lvp0 sf0) ws hpast hf2,
      hk, hsw, hp]
  · simpa using hsink
  · rw [hlvp]
    rfl
  · rw [hpage]
    rfl

/-- A page of ten scrapable works for the C7 witness. -/
def tenWorks : List Work :=
  [⟨"1", true, 5, false⟩, ⟨"2", true, 15, false⟩, ⟨"3", true, 25, false⟩,
   ⟨"4", true, 35, false⟩, ⟨"5", true, 45, false⟩, ⟨"6", true, 55, false⟩,
   ⟨"7", true, 65, false⟩, ⟨"8", true, 75, false⟩, ⟨"9", true, 85, false⟩,
   ⟨"10", true, 95, false⟩]

/-- Configuration of the C7 witness: `max_work_count = 3`. -/
def cfgC7w : Config :=
  { start_page := 1, end_page := none, max_work_count := some 3
    sampling_strategy := Strategy.noSampling, sampling_percentage := 50
    sampling_n := 2, kudos_bins := [0, 100] }

/-- Environment of the C7 witness: every page fetch yields the ten works. -/
def envC7w : Env :=
  { attempts := fun _ _ => Attempt.resp 200 false tenWorks
    pick := fun l k => l.take k, offset := fun _ => 0 }

theorem claim7_maxcount_stops_midpage_witness :
    (∃ s2 : RunState,
      scrapeLoop cfgC7w envC7w 1 (initState 1 [] none (fun _ => 0)) =
        (s2, StopReason.maxCount) ∧
      s2.sink = tenWorks.take 3 ∧
      s2.workCount = 3 ∧
      s2.lastVisitedFile = some 1 ∧
      s2.page = 1) ∧
    (scrapeLoop cfgC7w envC7w 1 (initState 1 [] none (fun _ => 0))).1.sink.length = 3 :=
  ⟨claim7_maxcount_stops_midpage cfgC7w envC7w 0 3 1 [] none (fun _ => 0) tenWorks
    rfl (by decide) rfl rfl (by decide) (by decide) (by decide) (by decide) (by decide),
   by decide⟩

/-! Empty pages (C8). -/

/-- Configuration for the C8 theorems: no end page, no sampling. -/
def cfgC8 : Config :=
  { start_page := 1, end_page := none, max_work_count := none
    sampling_strategy := Strategy.noSampling, sampling_percentage := 50
    sampling_n := 2, kudos_bins := [0, 100] }

/-- Environment of the C8 counterexample: page 1 succeeds with zero items,
page 2's fetch is rate-limited by the marker. -/
def envC8 : Env :=
  { attempts := fun p _ => if p = 1 then Attempt.resp 200 false []
      else Attempt.resp 200 true []
    pick := fun l k => l.take k, offset := fun _ => 0 }

/-- C8 counterexample: fetching a page with zero items does NOT stop the
controller — with no end page configured it advances to page 2 and fetches
it (the run ends as a page-2 rate-limit halt, which could only happen if a
further fetch was attempted after the empty page), contradicting "an empty
page causes the controller to stop rather than advance". -/
theorem claim8_empty_page_advances_cex :
    (scrapeLoop cfgC8 envC8 3 (initState 1 [] none (fun _ => 0))).2 =
      StopReason.rateLimitPage ∧
    (scrapeLoop cfgC8 envC8 3 (initState 1 [] none (fun _ => 0))).1.page = 2 := by
  decide

/-- C8 (amended): there is no empty-page stop condition at all.  A page with
zero items leaves the item loop with nothing to do and the controller
advances by one; with no (truthy) end page and every fetch returning an
empty page, the loop never stops gracefully — after any fuel `f` it is still
running (`outOfFuel`), `f` pages further along, having emitted nothing.  The
loop terminates only via the end-page bound, the max-count break, or one of
the `exit(0)` halts. -/
theorem claim8_no_empty_page_stop (cfg : Config) (env : Env)
    (hend : truthyNat cfg.end_page = false)
    (hstrat : cfg.sampling_strategy = Strategy.noSampling)
    (hempty : ∀ p, env.attempts p 0 = Attempt.resp 200 false []) :
    ∀ (fuel : Nat) (s : RunState),
      (scrapeLoop cfg env fuel s).2 = StopReason.outOfFuel ∧
      (scrapeLoop cfg env fuel s).1.page = s.page + fuel ∧
      (scrapeLoop cfg env fuel s).1.sink = s.sink := by
  intro fuel
  induction fuel with
  | zero => intro s; exact ⟨rfl, rfl, rfl⟩
  | succ fuel ih =>
    intro s
    have hpast : pastEnd cfg.end_page s.page = false := by
      simp [pastEnd, hend]
    have hf : fetchPage (env.attempts s.page) 3 0 = PageOutcome.success [] := by
      show fetchPage (env.attempts s.page) (2 + 1) 0 = PageOutcome.success []
      rw [fetchPage, hempty s.page]
      rfl
    rw [scrapeLoop_fetchSuccess cfg env fuel s [] hpast hf]
    have hsw : sampledWorks cfg env [] s = [] := by
      simp [sampledWorks, hstrat, apply_sampling]
    have hsl : processWorks cfg.max_work_count cfg.kudos_bins
        (sampledWorks cfg env [] s) (sampledState cfg env [] s) =
        InnerResult.done (sampledState cfg env [] s) false := by
      rw [hsw]
      rfl
    rw [hsl]
    obtain ⟨g1, g2, g3⟩ := ih { sampledState cfg env [] s with
      page := (sampledState cfg env [] s).page + 1 }
    refine ⟨g1, ?_, g3⟩
    rw [g2]
    show (sampledState cfg env [] s).page + 1 + fuel = s.page + (fuel + 1)
    show s.page + 1 + fuel = s.page + (fuel + 1)
    omega

/-- Environment for the C8 witness: every fetch succeeds with zero items. -/
def envC8w : Env :=
  { attempts := fun _ _ => Attempt.resp 200 false []
    pick := fun l k => l.take k, offset := fun _ => 0 }

theorem claim8_no_empty_page_stop_witness :
    (scrapeLoop cfgC8 envC8w 5 (initState 1 [] none (fun _ => 0))).2 =
      StopReason.outOfFuel ∧
    (scrapeLoop cfgC8 envC8w 5 (initState 1 [] none (fun _ => 0))).1.page = 1 + 5 ∧
    (scrapeLoop cfgC8 envC8w 5 (initState 1 [] none (fun _ => 0))).1.sink = [] :=
  claim8_no_empty_page_stop cfgC8 envC8w rfl rfl (fun _ => rfl) 5
    (initState 1 [] none (fun _ => 0))

/-! The strata counters (C3). -/

theorem binPairs_map_fst : ∀ bins : List Nat, (binPairs bins).map Prod.fst = bins.dropLast := by
  intro bins
  induction bins with
  | nil => rfl
  | cons b t ih =>
    cases t with
    | nil => rfl
    | cons b2 t2 =>
      show (b, b2).1 :: ((binPairs (b2 :: t2)).map Prod.fst) = b :: (b2 :: t2).dropLast
      rw [ih]

theorem dropLast_nodup_of_increasing (bins : List Nat)
    (h : bins.Pairwise (· < ·)) : bins.dropLast.Nodup :=
  (List.Nodup.sublist (List.dropLast_sublist bins) (h.imp Nat.ne_of_lt))

theorem sum_map_zero (l : List Nat) : (l.map (fun _ => (0 : Nat))).sum = 0 := by
  induction l with
  | nil => rfl
  | cons a t ih => simp [ih]

/-- Adding `m` at one key of a Nodup key list adds `m` to the sum. -/
theorem sum_map_point_update (l : List Nat) (sc : Nat → Nat) (b m : Nat)
    (hnd : l.Nodup) (hb : b ∈ l) :
    (l.map (fun x => if x = b then sc x + m else sc x)).sum = (l.map sc).sum + m := by
  induction l with
  | nil => cases hb
  | cons a t ih =>
    have hnd2 := (List.nodup_cons.mp hnd).2
    have hnotin := (List.nodup_cons.mp hnd).1
    by_cases hab : a = b
    · have hbt : b ∉ t := by rw [← hab]; exact hnotin
      have ht : t.map (fun x => if x = b then sc x + m else sc x) = t.map sc := by
        refine List.map_congr_left ?_
        intro x hx
        rw [if_neg]
        intro hxb
        rw [hxb] at hx
        exact hbt hx
      simp only [List.map_cons, List.sum_cons, ht, if_pos hab]
      omega
    · have hbt : b ∈ t := by
        rcases List.mem_cons.mp hb with h | h
        · exact absurd h.symm hab
        · exact h
      simp only [List.map_cons, List.sum_cons, if_neg hab, ih hnd2 hbt]
      omega

/-- The emission-time counter bump adds exactly 1 to the total over the bin
keys when the work's kudos fall in some bin, and nothing otherwise. -/
theorem sum_bumpStrata (bins : List Nat) (kudos : Nat) (sc : Nat → Nat)
    (hnd : bins.dropLast.Nodup) :
    (bins.dropLast.map (bumpStrata bins kudos sc)).sum =
      (bins.dropLast.map sc).sum +
        (if (firstBinPair bins kudos).isSome then 1 else 0) := by
  cases hfb : firstBinPair bins kudos with
  | none => simp [bumpStrata, hfb]
  | some p =>
    have hp1 : p.1 ∈ bins.dropLast := by
      rw [← binPairs_map_fst bins]
      exact List.mem_map_of_mem Prod.fst (List.mem_of_find?_eq_some hfb)
    have : bumpStrata bins kudos sc = fun b => if b = p.1 then sc b + 1 else sc b := by
      simp [bumpStrata, hfb]
    rw [this, sum_map_point_update bins.dropLast sc p.1 1 hnd hp1]
    simp [hfb]

theorem emittedBinned_append (bins : List Nat) (l : List Work) (w : Work) :
    emittedBinned bins (l ++ [w]) =
      emittedBinned bins l + (if (firstBinPair bins w.kudos).isSome then 1 else 0) := by
  unfold emittedBinned
  rw [List.filter_append]
  cases hfb : firstBinPair bins w.kudos <;> simp [List.filter, hfb]

/-- The counter invariant of non-strata runs: the bin-key total of the
in-memory counters equals the number of emitted binned records, and the
persisted counter file agrees with the in-memory counters as soon as any
record has been emitted. -/
def StrataInv (bins : List Nat) (s : RunState) : Prop :=
  (bins.dropLast.map s.strata).sum = emittedBinned bins s.sink ∧
  (s.sink ≠ [] → s.strataFile = s.strata)

theorem strataInv_emit (bins : List Nat) (w : Work) (s s1 : RunState)
    (hnd : bins.dropLast.Nodup)
    (hs : scrape_single_work bins w s = SingleResult.done s1)
    (h : StrataInv bins s) : StrataInv bins s1 := by
  obtain ⟨hsum, hsync⟩ := h
  rcases scrape_single_work_done bins w s s1 hs with h1 | ⟨_, h1⟩
  · subst h1; exact ⟨hsum, hsync⟩
  · subst h1
    constructor
    · show (bins.dropLast.map (bumpStrata bins w.kudos s.strata)).sum =
        emittedBinned bins (s.sink ++ [w])
      rw [sum_bumpStrata bins w.kudos s.strata hnd, emittedBinned_append, hsum]
    · intro _
      rfl

/-- Configuration of the C3 counterexample: strata sampling, one page. -/
def cfgC3 : Config :=
  { start_page := 1, end_page := some 1, max_work_count := none
    sampling_strategy := Strategy.strata, sampling_percentage := 50
    sampling_n := 2, kudos_bins := [0, 100] }

/-- Environment of the C3 counterexample: one binned work per page. -/
def envC3 : Env :=
  { attempts := fun _ _ => Attempt.resp 200 false [⟨"1", true, 50, false⟩]
    pick := fun l k => l.take k, offset := fun _ => 0 }

/-- C3 counterexample: in a strata run the counters are bumped twice per
emitted record — once by `apply_sampling` (by `min_count` per nonempty bin,
before any emission) and once by `scrape_single_work`.  One page with one
binned work, fully emitted, ends with counter 2 (in memory and in the
persisted file) but 1 emitted binned record: the persisted-counter total does
not equal the emitted-record count. -/
theorem claim3_strata_double_count_cex :
    (scrapeLoop cfgC3 envC3 2 (initState 1 [] none (fun _ => 0))).2 =
      StopReason.completedRange ∧
    (scrapeLoop cfgC3 envC3 2 (initState 1 [] none (fun _ => 0))).1.strata 0 = 2 ∧
    (scrapeLoop cfgC3 envC3 2 (initState 1 [] none (fun _ => 0))).1.strataFile 0 = 2 ∧
    emittedBinned [0, 100] (scrapeLoop cfgC3 envC3 2 (initState 1 [] none (fun _ => 0))).1.sink
      = 1 ∧
    (([0, 100] : List Nat).dropLast.map
      (scrapeLoop cfgC3 envC3 2 (initState 1 [] none (fun _ => 0))).1.strata).sum = 2 := by
  decide

/-- C3 (amended): for every run that does not use the strata strategy, the
claimed invariant holds — each emitted record with a binned `popularityScore`
bumps exactly its bin's counter by 1 and nothing else touches the counters,
so at every stop the total of the in-memory counters over the bin keys
equals the number of emitted binned records, and `strata_counts.json`
agrees with the in-memory counters once any record has been emitted.  Under
the strata strategy the invariant fails, because `apply_sampling`
additionally adds `min_count` to every nonempty bin at sampling time,
regardless of which sampled works are later emitted (see the
counterexample, where the total is twice the emitted count). -/
theorem claim3_counter_invariant_nonstrata (cfg : Config) (env : Env)
    (fuel startP : Nat) (seen0 : List String) (lvp0 : Option Nat) (sf0 : Nat → Nat)
    (hstrat : cfg.sampling_strategy ≠ Strategy.strata)
    (hinc : cfg.kudos_bins.Pairwise (· < ·)) :
    (cfg.kudos_bins.dropLast.map
        (scrapeLoop cfg env fuel (initState startP seen0 lvp0 sf0)).1.strata).sum =
      emittedBinned cfg.kudos_bins
        (scrapeLoop cfg env fuel (initState startP seen0 lvp0 sf0)).1.sink ∧
    ((scrapeLoop cfg env fuel (initState startP seen0 lvp0 sf0)).1.sink ≠ [] →
      (scrapeLoop cfg env fuel (initState startP seen0 lvp0 sf0)).1.strataFile =
        (scrapeLoop cfg env fuel (initState startP seen0 lvp0 sf0)).1.strata) := by
  have hnd : cfg.kudos_bins.dropLast.Nodup := dropLast_nodup_of_increasing cfg.kudos_bins hinc
  have hinit : StrataInv cfg.kudos_bins (initState startP seen0 lvp0 sf0) := by
    constructor
    · show (cfg.kudos_bins.dropLast.map (fun _ => 0)).sum = emittedBinned cfg.kudos_bins []
      rw [sum_map_zero]
      rfl
    · intro h
      exact absurd rfl h
  have hfinal : StrataInv cfg.kudos_bins
      (scrapeLoop cfg env fuel (initState startP seen0 lvp0 sf0)).1 := by
    refine scrapeLoop_preserves cfg env (StrataInv cfg.kudos_bins) ?_ ?_ ?_ ?_ fuel _ hinit
    · intro s works h
      obtain ⟨hsum, hsync⟩ := h
      have hsc : (apply_sampling cfg.sampling_strategy cfg.sampling_percentage works
          cfg.sampling_n cfg.kudos_bins env.pick (env.offset s.page) s.strata).2 = s.strata := by
        cases hcase : cfg.sampling_strategy with
        | strata => exact absurd hcase hstrat
        | noSampling => rfl
        | random => rfl
        | systematic => rfl
      constructor
      · show (cfg.kudos_bins.dropLast.map (apply_sampling cfg.sampling_strategy
          cfg.sampling_percentage works cfg.sampling_n cfg.kudos_bins env.pick
          (env.offset s.page) s.strata).2).sum = emittedBinned cfg.kudos_bins s.sink
        rw [hsc]
        exact hsum
      · intro hne
        show s.strataFile = (apply_sampling cfg.sampling_strategy
          cfg.sampling_percentage works cfg.sampling_n cfg.kudos_bins env.pick
          (env.offset s.page) s.strata).2
        rw [hsc]
        exact hsync hne
    · exact fun w s s1 hs h => strataInv_emit cfg.kudos_bins w s s1 hnd hs h
    · intro s h
      exact h
    · intro s h
      exact h
  exact hfinal

theorem claim3_counter_invariant_nonstrata_witness :
    (cfgC4.kudos_bins.dropLast.map
        (scrapeLoop cfgC4 envC4 2 (initState 1 [] none (fun _ => 0))).1.strata).sum =
      emittedBinned cfgC4.kudos_bins
        (scrapeLoop cfgC4 envC4 2 (initState 1 [] none (fun _ => 0))).1.sink ∧
    ((scrapeLoop cfgC4 envC4 2 (initState 1 [] none (fun _ => 0))).1.sink ≠ [] →
      (scrapeLoop cfgC4 envC4 2 (initState 1 [] none (fun _ => 0))).1.strataFile =
        (scrapeLoop cfgC4 envC4 2 (initState 1 [] none (fun _ => 0))).1.strata) :=
  claim3_counter_invariant_nonstrata cfgC4 envC4 2 1 [] none (fun _ => 0)
    (by decide) (by decide)

/-! Strata sampling (C1). -/

theorem minPos_le : ∀ (cs : List Nat), ∀ c ∈ cs, minPos cs ≤ c := by
  intro cs
  induction cs with
  | nil => intro c hc; cases hc
  | cons a t ih =>
    intro c hc
    cases t with
    | nil =>
      have : c = a := by simpa using hc
      simp [minPos, this]
    | cons b t2 =>
      show min a (minPos (b :: t2)) ≤ c
      rcases List.mem_cons.mp hc with h | h
      · rw [h]
        exact Nat.min_le_left _ _
      · exact le_trans (Nat.min_le_right _ _) (ih c h)

theorem minPos_mem : ∀ (cs : List Nat), cs ≠ [] → minPos cs ∈ cs := by
  intro cs
  induction cs with
  | nil => intro h; exact absurd rfl h
  | cons a t ih =>
    intro _
    cases t with
    | nil => simp [minPos]
    | cons b t2 =>
      show min a (minPos (b :: t2)) ∈ a :: b :: t2
      rcases Nat.le_total a (minPos (b :: t2)) with h | h
      · rw [Nat.min_eq_left h]
        exact List.mem_cons_self _ _
      · rw [Nat.min_eq_right h]
        exact List.mem_cons_of_mem a (ih (by simp))

theorem filter_joinL {α : Type} (pr : α → Bool) :
    ∀ L : List (List α), (joinL L).filter pr = joinL (L.map (List.filter pr)) := by
  intro L
  induction L with
  | nil => rfl
  | cons l L2 ih => simp [joinL, List.filter_append, ih]

theorem joinL_eq_nil {α : Type} :
    ∀ L : List (List α), (∀ l ∈ L, l = ([] : List α)) → joinL L = [] := by
  intro L
  induction L with
  | nil => intro _; rfl
  | cons l L2 ih =>
    intro h
    show l ++ joinL L2 = []
    rw [h l (List.mem_cons_self l L2), ih (fun x hx => h x (List.mem_cons_of_mem l hx))]
    rfl

theorem joinL_map_single {β γ : Type} (g : β → List γ) :
    ∀ (L : List β) (p : β), L.Nodup → p ∈ L → (∀ q ∈ L, q ≠ p → g q = []) →
      joinL (L.map g) = g p := by
  intro L
  induction L with
  | nil => intro p _ hp; cases hp
  | cons a L2 ih =>
    intro p hnd hp h0
    show g a ++ joinL (L2.map g) = g p
    by_cases hap : a = p
    · subst hap
      have : joinL (L2.map g) = [] := by
        refine joinL_eq_nil _ ?_
        intro l hl
        obtain ⟨q, hq, rfl⟩ := List.mem_map.mp hl
        refine h0 q (List.mem_cons_of_mem a hq) ?_
        intro hqa
        exact (List.nodup_cons.mp hnd).1 (hqa ▸ hq)
      rw [this, List.append_nil]
    · have hpL2 : p ∈ L2 := by
        rcases List.mem_cons.mp hp with h | h
        · exact absurd h.symm hap
        · exact h
      rw [h0 a (List.mem_cons_self a L2) hap,
        ih p (List.nodup_cons.mp hnd).2 hpL2
          (fun q hq hqp => h0 q (List.mem_cons_of_mem a hq) hqp)]
      rfl

theorem inBin_of_mem_worksByBin (bins : List Nat) (ws : List Work) (p : Nat × Nat)
    (w : Work) (h : w ∈ worksByBin bins ws p) : inBin bins p w = true :=
  (List.mem_filter.mp h).2

theorem firstBinPair_of_inBin (bins : List Nat) (p : Nat × Nat) (w : Work)
    (h : inBin bins p w = true) : firstBinPair bins w.kudos = some p := by
  unfold inBin at h
  exact eq_of_beq h

theorem inBin_false_of_other (bins : List Nat) (p q : Nat × Nat) (w : Work)
    (hne : q ≠ p) (h : inBin bins q w = true) : inBin bins p w = false := by
  have hq := firstBinPair_of_inBin bins q w h
  unfold inBin
  rw [hq]
  rw [beq_eq_false_iff_ne]
  intro hcontra
  exact hne (by injection hcontra)

/-- The per-key page count agrees with the per-pair bin size when the pair
lower bounds are distinct (strictly increasing boundaries). -/
theorem pageStrataCount_eq_worksByBin (bins : List Nat) (ws : List Work) (p : Nat × Nat)
    (hfstnd : ((binPairs bins).map Prod.fst).Nodup) (hp : p ∈ binPairs bins) :
    pageStrataCount bins ws p.1 = (worksByBin bins ws p).length := by
  unfold pageStrataCount worksByBin
  rw [← List.countP_eq_length_filter]
  refine List.countP_congr ?_
  intro w _
  show ((firstBinPair bins w.kudos).map Prod.fst == some p.1) = true ↔ inBin bins p w = true
  unfold inBin
  cases hfb : firstBinPair bins w.kudos with
  | none => simp
  | some q =>
    have hqmem : q ∈ binPairs bins := List.mem_of_find?_eq_some hfb
    simp only [beq_iff_eq, Option.some_inj]
    constructor
    · intro h1
      have h2 : q.1 = p.1 := by simpa using h1
      exact List.inj_on_of_nodup_map hfstnd hqmem hp h2
    · intro h1
      simp [h1]

/-- `min_count` is a lower bound on every nonempty bin's page population. -/
theorem minPositiveCount_le (bins : List Nat) (ws : List Work)
    (hfstnd : ((binPairs bins).map Prod.fst).Nodup) (p : Nat × Nat)
    (hp : p ∈ binPairs bins) (hne : worksByBin bins ws p ≠ []) :
    minPositiveCount bins ws ≤ (worksByBin bins ws p).length := by
  have hcnt := pageStrataCount_eq_worksByBin bins ws p hfstnd hp
  have hmem1 : p.1 ∈ bins.dropLast := by
    rw [← binPairs_map_fst]
    exact List.mem_map_of_mem Prod.fst hp
  have hpos : 0 < pageStrataCount bins ws p.1 := by
    rw [hcnt]
    exact List.length_pos.mpr hne
  have hmem3 : pageStrataCount bins ws p.1 ∈
      ((bins.dropLast.map (pageStrataCount bins ws)).filter (fun c => decide (0 < c))) :=
    List.mem_filter.mpr ⟨List.mem_map_of_mem (pageStrataCount bins ws) hmem1,
      decide_eq_true hpos⟩
  calc minPositiveCount bins ws ≤ pageStrataCount bins ws p.1 := minPos_le _ _ hmem3
    _ = (worksByBin bins ws p).length := hcnt

/-- `min_count` is positive as soon as some bin is nonempty on the page. -/
theorem minPositiveCount_pos (bins : List Nat) (ws : List Work)
    (hfstnd : ((binPairs bins).map Prod.fst).Nodup) (p : Nat × Nat)
    (hp : p ∈ binPairs bins) (hne : worksByBin bins ws p ≠ []) :
    0 < minPositiveCount bins ws := by
  have hcnt := pageStrataCount_eq_worksByBin bins ws p hfstnd hp
  have hmem1 : p.1 ∈ bins.dropLast := by
    rw [← binPairs_map_fst]
    exact List.mem_map_of_mem Prod.fst hp
  have hpos : 0 < pageStrataCount bins ws p.1 := by
    rw [hcnt]
    exact List.length_pos.mpr hne
  have hmem3 : pageStrataCount bins ws p.1 ∈
      ((bins.dropLast.map (pageStrataCount bins ws)).filter (fun c => decide (0 < c))) :=
    List.mem_filter.mpr ⟨List.mem_map_of_mem (pageStrataCount bins ws) hmem1,
      decide_eq_true hpos⟩
  have hm := minPos_mem _ (List.ne_nil_of_mem hmem3)
  exact of_decide_eq_true (List.mem_filter.mp hm).2

/-- `min_count` is attained: some nonempty bin has exactly `min_count` works
on the page (so it really is the minimum positive per-bin count). -/
theorem minPositiveCount_attained (bins : List Nat) (ws : List Work)
    (hfstnd : ((binPairs bins).map Prod.fst).Nodup)
    (hex : ∃ p ∈ binPairs bins, worksByBin bins ws p ≠ []) :
    ∃ q ∈ binPairs bins, worksByBin bins ws q ≠ [] ∧
      (worksByBin bins ws q).length = minPositiveCount bins ws := by
  obtain ⟨p0, hp0, hne0⟩ := hex
  have hcnt0 := pageStrataCount_eq_worksByBin bins ws p0 hfstnd hp0
  have hmem1 : p0.1 ∈ bins.dropLast := by
    rw [← binPairs_map_fst]
    exact List.mem_map_of_mem Prod.fst hp0
  have hpos0 : 0 < pageStrataCount bins ws p0.1 := by
    rw [hcnt0]
    exact List.length_pos.mpr hne0
  have hmem3 : pageStrataCount bins ws p0.1 ∈
      ((bins.dropLast.map (pageStrataCount bins ws)).filter (fun c => decide (0 < c))) :=
    List.mem_filter.mpr ⟨List.mem_map_of_mem (pageStrataCount bins ws) hmem1,
      decide_eq_true hpos0⟩
  have hm := minPos_mem _ (List.ne_nil_of_mem hmem3)
  have hmpos : 0 < minPositiveCount bins ws :=
    of_decide_eq_true (List.mem_filter.mp hm).2
  have hmmap : minPositiveCount bins ws ∈ bins.dropLast.map (pageStrataCount bins ws) :=
    (List.mem_filter.mp hm).1
  obtain ⟨b, hb, hbeq⟩ := List.mem_map.mp hmmap
  rw [← binPairs_map_fst] at hb
  obtain ⟨q, hq, rfl⟩ := List.mem_map.mp hb
  have hlen : (worksByBin bins ws q).length = minPositiveCount bins ws := by
    rw [← pageStrataCount_eq_worksByBin bins ws q hfstnd hq]
    exact hbeq
  refine ⟨q, hq, ?_, hlen⟩
  intro hnil
  rw [hnil] at hlen
  simp at hlen
  omega

/-- When every bin is empty on the page, `min_count` is zero. -/
theorem minPositiveCount_of_all_empty (bins : List Nat) (ws : List Work)
    (hall : ∀ p ∈ binPairs bins, worksByBin bins ws p = []) :
    minPositiveCount bins ws = 0 := by
  unfold minPositiveCount
  have hfe : ((bins.dropLast.map (pageStrataCount bins ws)).filter
      (fun c => decide (0 < c))) = [] := by
    rw [List.filter_eq_nil_iff]
    intro c hc
    obtain ⟨b, _, rfl⟩ := List.mem_map.mp hc
    suffices h : pageStrataCount bins ws b = 0 by simp [h]
    unfold pageStrataCount
    rw [List.countP_eq_zero]
    intro w hw hpred
    cases hfb : firstBinPair bins w.kudos with
    | none => rw [hfb] at hpred; simp at hpred
    | some q =>
      have hq : q ∈ binPairs bins := List.mem_of_find?_eq_some hfb
      have hwq : w ∈ worksByBin bins ws q := by
        refine List.mem_filter.mpr ⟨hw, ?_⟩
        unfold inBin
        rw [hfb]
        simp
      rw [hall q hq] at hwq
      cases hwq
  rw [hfe]
  rfl

/-- With `min_count = 0` nothing is sampled (every bin's guard fails). -/
theorem strataSampled_zero (pick : List Work → Nat → List Work) (bins : List Nat)
    (ws : List Work) : strataSampled pick bins ws 0 = [] := by
  unfold strataSampled
  refine joinL_eq_nil _ ?_
  intro l hl
  obtain ⟨q, _, rfl⟩ := List.mem_map.mp hl
  rw [if_neg]
  intro hcond
  exact absurd hcond.2 (by omega)

/-- The sampled works lying in a nonempty bin `p` are exactly the
`random.sample` draw from that bin. -/
theorem strataSampled_filter_nonempty (bins : List Nat) (ws : List Work)
    (pick : List Work → Nat → List Work)
    (hfstnd : ((binPairs bins).map Prod.fst).Nodup)
    (hpick : ∀ (l : List Work) (k : Nat), k ≤ l.length →
      (pick l k).length = k ∧ List.Subperm (pick l k) l)
    (p : Nat × Nat) (hp : p ∈ binPairs bins) (hne : worksByBin bins ws p ≠ []) :
    (strataSampled pick bins ws (minPositiveCount bins ws)).filter (inBin bins p) =
      pick (worksByBin bins ws p) (minPositiveCount bins ws) := by
  have hpairnd : (binPairs bins).Nodup := hfstnd.of_map
  have hmpos := minPositiveCount_pos bins ws hfstnd p hp hne
  unfold strataSampled
  rw [filter_joinL, List.map_map]
  have hsingle := joinL_map_single
    (List.filter (inBin bins p) ∘ fun q =>
      if 0 < (worksByBin bins ws q).length ∧ 0 < minPositiveCount bins ws then
        pick (worksByBin bins ws q) (minPositiveCount bins ws) else [])
    (binPairs bins) p hpairnd hp ?_
  · rw [hsingle]
    show (if 0 < (worksByBin bins ws p).length ∧ 0 < minPositiveCount bins ws then
        pick (worksByBin bins ws p) (minPositiveCount bins ws) else []).filter (inBin bins p) =
      pick (worksByBin bins ws p) (minPositiveCount bins ws)
    rw [if_pos ⟨List.length_pos.mpr hne, hmpos⟩]
    refine List.filter_eq_self.mpr ?_
    intro w hw
    have hle := minPositiveCount_le bins ws hfstnd p hp hne
    have hsub := (hpick (worksByBin bins ws p) (minPositiveCount bins ws) hle).2.subset
    exact inBin_of_mem_worksByBin bins ws p w (hsub hw)
  · intro q hq hqp
    show (if 0 < (worksByBin bins ws q).length ∧ 0 < minPositiveCount bins ws then
        pick (worksByBin bins ws q) (minPositiveCount bins ws) else []).filter (inBin bins p) = []
    by_cases hcond : 0 < (worksByBin bins ws q).length ∧ 0 < minPositiveCount bins ws
    · rw [if_pos hcond]
      rw [List.filter_eq_nil_iff]
      intro w hw
      have hqne : worksByBin bins ws q ≠ [] := by
        intro hnil
        rw [hnil] at hcond
        exact absurd hcond.1 (by simp)
      have hle := minPositiveCount_le bins ws hfstnd q hq hqne
      have hsub := (hpick (worksByBin bins ws q) (minPositiveCount bins ws) hle).2.subset
      have hwq := inBin_of_mem_worksByBin bins ws q w (hsub hw)
      have := inBin_false_of_other bins p q w hqp hwq
      simp [this]
    · rw [if_neg hcond]
      rfl

/-- No sampled work lies in a bin that is empty on the page. -/
theorem strataSampled_filter_empty (bins : List Nat) (ws : List Work)
    (pick : List Work → Nat → List Work)
    (hfstnd : ((binPairs bins).map Prod.fst).Nodup)
    (hpick : ∀ (l : List Work) (k : Nat), k ≤ l.length →
      (pick l k).length = k ∧ List.Subperm (pick l k) l)
    (p : Nat × Nat) (hp : p ∈ binPairs bins) (hemp : worksByBin bins ws p = []) :
    (strataSampled pick bins ws (minPositiveCount bins ws)).filter (inBin bins p) = [] := by
  unfold strataSampled
  rw [filter_joinL]
  refine joinL_eq_nil _ ?_
  intro l hl
  obtain ⟨l2, hl2, rfl⟩ := List.mem_map.mp hl
  obtain ⟨q, hq, rfl⟩ := List.mem_map.mp hl2
  by_cases hqp : q = p
  · subst hqp
    rw [if_neg]
    · rfl
    · intro hcond
      rw [hemp] at hcond
      exact absurd hcond.1 (by simp)
  · by_cases hcond : 0 < (worksByBin bins ws q).length ∧ 0 < minPositiveCount bins ws
    · rw [if_pos hcond]
      rw [List.filter_eq_nil_iff]
      intro w hw
      have hqne : worksByBin bins ws q ≠ [] := by
        intro hnil
        rw [hnil] at hcond
        exact absurd hcond.1 (by simp)
      have hle := minPositiveCount_le bins ws hfstnd q hq hqne
      have hsub := (hpick (worksByBin bins ws q) (minPositiveCount bins ws) hle).2.subset
      have hwq := inBin_of_mem_worksByBin bins ws q w (hsub hw)
      have := inBin_false_of_other bins p q w hqp hwq
      simp [this]
    · rw [if_neg hcond]
      rfl

/-- C1: for every page and every strictly increasing bin sequence, and for
every `random.sample` realization `pick` that draws without replacement
(`k` requested from a bin of at least `k` gives `k` items forming a
sub-multiset of the bin), strata sampling computes `min_count` as the
minimum positive per-bin page count — it is a lower bound on every nonempty
bin's population and is attained, positive, by some nonempty bin; if every
bin is empty it is 0 and the sampled set is empty — and the returned works
lying in each nonempty bin are exactly the `min_count`-sized draw from that
bin's page population (empty bins contribute nothing). -/
theorem claim1_strata_balanced_sampling (bins : List Nat) (ws : List Work)
    (pct n r : Nat) (pick : List Work → Nat → List Work) (sc : Nat → Nat)
    (hinc : bins.Pairwise (· < ·))
    (hpick : ∀ (l : List Work) (k : Nat), k ≤ l.length →
      (pick l k).length = k ∧ List.Subperm (pick l k) l) :
    (∀ p ∈ binPairs bins, worksByBin bins ws p ≠ [] →
      minPositiveCount bins ws ≤ (worksByBin bins ws p).length) ∧
    ((∃ p ∈ binPairs bins, worksByBin bins ws p ≠ []) →
      ∃ q ∈ binPairs bins, worksByBin bins ws q ≠ [] ∧
        (worksByBin bins ws q).length = minPositiveCount bins ws ∧
        0 < minPositiveCount bins ws) ∧
    ((∀ p ∈ binPairs bins, worksByBin bins ws p = []) →
      minPositiveCount bins ws = 0 ∧
      (apply_sampling Strategy.strata pct ws n bins pick r sc).1 = []) ∧
    (∀ p ∈ binPairs bins, worksByBin bins ws p ≠ [] →
      ((apply_sampling Strategy.strata pct ws n bins pick r sc).1.filter (inBin bins p)) =
        pick (worksByBin bins ws p) (minPositiveCount bins ws) ∧
      ((apply_sampling Strategy.strata pct ws n bins pick r sc).1.filter
        (inBin bins p)).length = minPositiveCount bins ws ∧
      List.Subperm
        ((apply_sampling Strategy.strata pct ws n bins pick r sc).1.filter (inBin bins p))
        (worksByBin bins ws p)) ∧
    (∀ p ∈ binPairs bins, worksByBin bins ws p = [] →
      (apply_sampling Strategy.strata pct ws n bins pick r sc).1.filter (inBin bins p) = []) := by
  have hfstnd : ((binPairs bins).map Prod.fst).Nodup := by
    rw [binPairs_map_fst]
    exact dropLast_nodup_of_increasing bins hinc
  have happ : (apply_sampling Strategy.strata pct ws n bins pick r sc).1 =
      strataSampled pick bins ws (minPositiveCount bins ws) := rfl
  refine ⟨?_, ?_, ?_, ?_, ?_⟩
  · intro p hp hne
    exact minPositiveCount_le bins ws hfstnd p hp hne
  · intro hex
    obtain ⟨q, hq, hne, hlen⟩ := minPositiveCount_attained bins ws hfstnd hex
    exact ⟨q, hq, hne, hlen, minPositiveCount_pos bins ws hfstnd q hq hne⟩
  · intro hall
    have hz := minPositiveCount_of_all_empty bins ws hall
    refine ⟨hz, ?_⟩
    rw [happ, hz]
    exact strataSampled_zero pick bins ws
  · intro p hp hne
    rw [happ]
    refine ⟨strataSampled_filter_nonempty bins ws pick hfstnd hpick p hp hne, ?_, ?_⟩
    · rw [strataSampled_filter_nonempty bins ws pick hfstnd hpick p hp hne]
      exact (hpick (worksByBin bins ws p) (minPositiveCount bins ws)
        (minPositiveCount_le bins ws hfstnd p hp hne)).1
    · rw [strataSampled_filter_nonempty bins ws pick hfstnd hpick p hp hne]
      exact (hpick (worksByBin bins ws p) (minPositiveCount bins ws)
        (minPositiveCount_le bins ws hfstnd p hp hne)).2
  · intro p hp hemp
    rw [happ]
    exact strataSampled_filter_empty bins ws pick hfstnd hpick p hp hemp

/-- `random.sample` realized as "take the first k": k items, a sub-multiset
of the population. -/
theorem takeSampler_contract : ∀ (l : List Work) (k : Nat), k ≤ l.length →
    (l.take k).length = k ∧ List.Subperm (l.take k) l := by
  intro l k hk
  constructor
  · rw [List.length_take]
    omega
  · exact (List.take_sublist k l).subperm

/-- The page of the strata-balance example: bin populations
`{[0,100): 5, [100,500): 2, [500,1000): 0}`. -/
def strataPage : List Work :=
  [⟨"a1", true, 10, false⟩, ⟨"a2", true, 20, false⟩, ⟨"a3", true, 30, false⟩,
   ⟨"a4", true, 40, false⟩, ⟨"a5", true, 50, false⟩,
   ⟨"b1", true, 150, false⟩, ⟨"b2", true, 200, false⟩]

theorem claim1_strata_balanced_sampling_witness :
    ((∀ p ∈ binPairs [0, 100, 500, 1000], worksByBin [0, 100, 500, 1000] strataPage p ≠ [] →
      minPositiveCount [0, 100, 500, 1000] strataPage ≤
        (worksByBin [0, 100, 500, 1000] strataPage p).length) ∧
    ((∃ p ∈ binPairs [0, 100, 500, 1000], worksByBin [0, 100, 500, 1000] strataPage p ≠ []) →
      ∃ q ∈ binPairs [0, 100, 500, 1000], worksByBin [0, 100, 500, 1000] strataPage q ≠ [] ∧
        (worksByBin [0, 100, 500, 1000] strataPage q).length =
          minPositiveCount [0, 100, 500, 1000] strataPage ∧
        0 < minPositiveCount [0, 100, 500, 1000] strataPage) ∧
    ((∀ p ∈ binPairs [0, 100, 500, 1000], worksByBin [0, 100, 500, 1000] strataPage p = []) →
      minPositiveCount [0, 100, 500, 1000] strataPage = 0 ∧
      (apply_sampling Strategy.strata 50 strataPage 2 [0, 100, 500, 1000]
        (fun l k => l.take k) 0 (fun _ => 0)).1 = []) ∧
    (∀ p ∈ binPairs [0, 100, 500, 1000], worksByBin [0, 100, 500, 1000] strataPage p ≠ [] →
      ((apply_sampling Strategy.strata 50 strataPage 2 [0, 100, 500, 1000]
          (fun l k => l.take k) 0 (fun _ => 0)).1.filter (inBin [0, 100, 500, 1000] p)) =
        (worksByBin [0, 100, 500, 1000] strataPage p).take
          (minPositiveCount [0, 100, 500, 1000] strataPage) ∧
      ((apply_sampling Strategy.strata 50 strataPage 2 [0, 100, 500, 1000]
          (fun l k => l.take k) 0 (fun _ => 0)).1.filter
        (inBin [0, 100, 500, 1000] p)).length =
          minPositiveCount [0, 100, 500, 1000] strataPage ∧
      List.Subperm
        ((apply_sampling Strategy.strata 50 strataPage 2 [0, 100, 500, 1000]
          (fun l k => l.take k) 0 (fun _ => 0)).1.filter (inBin [0, 100, 500, 1000] p))
        (worksByBin [0, 100, 500, 1000] strataPage p)) ∧
    (∀ p ∈ binPairs [0, 100, 500, 1000], worksByBin [0, 100, 500, 1000] strataPage p = [] →
      (apply_sampling Strategy.strata 50 strataPage 2 [0, 100, 500, 1000]
        (fun l k => l.take k) 0 (fun _ => 0)).1.filter (inBin [0, 100, 500, 1000] p) = [])) ∧
    minPositiveCount [0, 100, 500, 1000] strataPage = 2 ∧
    ((apply_sampling Strategy.strata 50 strataPage 2 [0, 100, 500, 1000]
      (fun l k => l.take k) 0 (fun _ => 0)).1.filter
        (inBin [0, 100, 500, 1000] (0, 100))).length = 2 ∧
    ((apply_sampling Strategy.strata 50 strataPage 2 [0, 100, 500, 1000]
      (fun l k => l.take k) 0 (fun _ => 0)).1.filter
        (inBin [0, 100, 500, 1000] (100, 500))).length = 2 ∧
    (apply_sampling Strategy.strata 50 strataPage 2 [0, 100, 500, 1000]
      (fun l k => l.take k) 0 (fun _ => 0)).1.filter
        (inBin [0, 100, 500, 1000] (500, 1000)) = [] :=
  ⟨claim1_strata_balanced_sampling [0, 100, 500, 1000] strataPage 50 2 0
    (fun l k => l.take k) (fun _ => 0) (by decide) takeSampler_contract,
   by decide, by decide, by decide, by decide⟩
